import Mathlib

/-!
# SOGAS-V3 backend: verification of the frozen specification claims

Shallow embedding of the SOGAS HR backend (Node/Express + MySQL, mysql2
driver) in Lean 4, together with proofs settling the claims C1..C10.

Part 1 embeds the pure working-hours engine `calculateHours` from
`backend/routes/structure/siteRoutes.js` (the timeRoutes section).
Part 2 embeds the stateful routes (employee creation/update/archive,
contract creation, leave-request submission) as explicit transition
functions on a relational-store state, mirroring the SQL statements that
each route issues inside its transaction.

Numbers: JavaScript numbers are modelled as rationals; all quantities
handled by the hours engine are exact quarter-hours or two-decimal
percentages, far below any double-precision rounding granularity, so the
rational model is exact. Dates are modelled as integers (days); the SQL
expression CURDATE() - INTERVAL 1 DAY becomes subtraction by one.
-/

namespace SOGAS

/-- A wall-clock time of day in HH:MM format (already matched by the Joi
regex, hence hours 0..23 and minutes 0..59 for valid requests). -/
structure HM where
  hours : Nat
  minutes : Nat
  deriving DecidableEq, Repr

/-- A HH:MM string accepted by the Joi regex used for checkin/checkout. -/
def HM.valid (t : HM) : Bool :=
  t.hours ≤ 23 && t.minutes ≤ 59

/-- JS helper `timeToMinutes` inside `calculateHours`: minutes since
midnight. -/
def timeToMinutes (t : HM) : Int :=
  t.hours * 60 + t.minutes

/-- `totalHours` of the source: the raw duration in decimal hours,
`(timeToMinutes(heure_sortie) - timeToMinutes(heure_entree)) / 60`. -/
def rawHours (heure_entree heure_sortie : HM) : ℚ :=
  ((timeToMinutes heure_sortie - timeToMinutes heure_entree : Int) : ℚ) / 60

/-- `totalHoursRounded = Math.ceil(totalHours * 4) / 4`: the raw duration
rounded up to the nearest quarter hour. -/
def totalHoursRounded (heure_entree heure_sortie : HM) : ℚ :=
  ((⌈rawHours heure_entree heure_sortie * 4⌉ : Int) : ℚ) / 4

/-- JS `parseFloat(x.toFixed(2))`: rounding to two fractional digits.  All
values the source applies it to are exact multiples of 0.25 (or percentages
stored with two decimals), on which it is the identity; we model the
round-half-up reading of toFixed. -/
def round2 (q : ℚ) : ℚ :=
  ((⌊q * 100 + 1/2⌋ : Int) : ℚ) / 100

/-- The record returned by `calculateHours`. -/
structure HoursResult where
  totalHours : ℚ
  heures_normales : ℚ
  heures_sup_15 : ℚ
  heures_sup_40 : ℚ
  heures_supplementaires : ℚ
  majoration_pourcentage : ℚ
  panierRepas : Bool
  deriving DecidableEq, Repr

/-- The hours-calculation engine `calculateHours(heure_entree,
heure_sortie, isHoliday, isSunday, majorationFeriee)` of
backend/routes/time/timeRoutes.js, translated statement by statement.
The source computes `normalHours`/`overtimeHours` before the branch and
reassigns them to `0`/`totalHoursRounded` in the three special-day
branches; here each branch builds its return record with those values
substituted. -/
def calculateHours (heure_entree heure_sortie : HM) (isHoliday isSunday : Bool)
    (majorationFeriee : ℚ) : HoursResult :=
  let t := totalHoursRounded heure_entree heure_sortie
  let baseNormalHours : ℚ := 8
  let normalHours : ℚ := min t baseNormalHours
  let overtimeHours : ℚ := max 0 (t - baseNormalHours)
  let panierRepas : Bool := decide (t ≥ 10)
  if isHoliday && isSunday then
    -- Dimanche ET Férié: majoration = 100, all hours surcharged
    { totalHours := t
      heures_normales := round2 0
      heures_sup_15 := 0
      heures_sup_40 := 0
      heures_supplementaires := round2 t
      majoration_pourcentage := round2 100
      panierRepas := panierRepas }
  else if isHoliday then
    -- Jour férié seul: the configured majoration, all hours surcharged
    { totalHours := t
      heures_normales := round2 0
      heures_sup_15 := 0
      heures_sup_40 := 0
      heures_supplementaires := round2 t
      majoration_pourcentage := round2 majorationFeriee
      panierRepas := panierRepas }
  else if isSunday then
    -- Dimanche seul: majoration = 60, all hours surcharged
    { totalHours := t
      heures_normales := round2 0
      heures_sup_15 := 0
      heures_sup_40 := 0
      heures_supplementaires := round2 t
      majoration_pourcentage := round2 60
      panierRepas := panierRepas }
  else
    -- Jours normaux: 8h base, then a 2h tier at 15 percent, rest at 40
    let overtime15 := min overtimeHours 2
    let overtime40 := max 0 (overtimeHours - 2)
    { totalHours := t
      heures_normales := round2 normalHours
      heures_sup_15 := round2 overtime15
      heures_sup_40 := round2 overtime40
      heures_supplementaires := round2 (overtime15 + overtime40)
      majoration_pourcentage := 0
      panierRepas := panierRepas }

/-- A rational that is an exact multiple of a quarter (the granularity of
every duration handled by the engine). -/
def IsQuarter (q : ℚ) : Prop := ∃ k : ℤ, q = (k : ℚ) / 4

-- ######################################################################
-- Part 2: the stateful routes, as transitions on the relational store
-- ######################################################################

/-- JS truthiness of an optional Joi-validated number field
(`fieldsToUpdate.x` is falsy when the field is absent or zero). -/
def truthyNum (o : Option Nat) : Bool :=
  match o with
  | none => false
  | some n => n != 0

/-- JS truthiness of an optional string field (absent or empty is falsy). -/
def truthyStr (o : Option String) : Bool :=
  match o with
  | none => false
  | some s => s != ""

/-- JS `o || d` for an optional number: the supplied value when truthy,
otherwise the fallback. -/
def jsOrNum (o : Option Nat) (d : Nat) : Nat :=
  match o with
  | none => d
  | some n => if n = 0 then d else n

/-- JS `o || d` for an optional string. -/
def jsOrStr (o : Option String) (d : String) : String :=
  match o with
  | none => d
  | some s => if s = "" then d else s

/-- JS `o || null` for an optional string column value. -/
def jsStrOrNull (o : Option String) : Option String :=
  match o with
  | none => none
  | some s => if s = "" then none else some s

/-- An employee placement: the six affectation-affecting columns of the
employees table. -/
structure Placement where
  site_id : Nat
  department_id : Nat
  service_id : Nat
  team_id : Nat
  position : String
  fonction : String
  deriving DecidableEq, Repr

/-- A row of the employee_affectations history table.  The old snapshot is
absent (NULL columns) on the initial hire record. -/
structure Affectation where
  employee_id : Nat
  date_debut : Int
  date_fin : Option Int
  motif : String
  commentaire : Option String
  created_by_user_id : Nat
  ancien : Option Placement
  nouveau : Placement
  deriving DecidableEq, Repr

/-- The claim-relevant columns of an employees row.  statut defaults to
Actif on insert (employee lifecycle of the spec data model); position_id
is the classification column mirrored by contract creation. -/
structure Employee where
  id : Nat
  matricule : String
  statut : String
  placement : Placement
  user_id : Option Nat
  position_id : Option Nat
  deriving DecidableEq, Repr

/-- A row of the contracts table. -/
structure Contract where
  id : Nat
  employee_id : Nat
  type_contrat : String
  date_debut : Int
  date_fin_prevue : Option Int
  position_id : Nat
  salaire_de_base : ℚ
  notes_rh : Option String
  document_url : Option String
  is_avenant : Bool
  parent_contract_id : Option Nat
  statut : String
  deriving DecidableEq, Repr

/-- A row of the leave_requests table (statut_actuel defaults to Soumis on
insert, as the route comment records). -/
structure LeaveRequest where
  id : Nat
  employee_id : Nat
  type_conge : String
  date_debut : Int
  date_fin : Int
  nb_jours : ℚ
  motif_employe : Option String
  statut_actuel : String
  deriving DecidableEq, Repr

/-- A row of the leave_validations workflow table. -/
structure LeaveValidation where
  request_id : Nat
  validateur_id : Nat
  niveau_validation : String
  decision : String
  commentaire : String
  deriving DecidableEq, Repr

/-- The relational-store state visible to the embedded routes.  The
structure tables only need their primary keys (the routes check bare
existence); auto-increment keys are modelled by next-id counters. -/
structure DB where
  sites : List Nat
  departments : List Nat
  services : List Nat
  teams : List Nat
  employees : List Employee
  affectations : List Affectation
  contracts : List Contract
  leave_requests : List LeaveRequest
  leave_validations : List LeaveValidation
  nextEmployeeId : Nat
  nextContractId : Nat
  nextRequestId : Nat
  deriving DecidableEq, Repr

/-- HTTP statuses produced by the embedded routes. -/
inductive HttpStatus where
  | ok200
  | created201
  | badRequest400
  | notFound404
  | conflict409
  deriving DecidableEq, Repr

/-- The validated body of POST /api/employee (employeeCreationSchema; the
personal and contact sub-records do not interact with any claim and are
projected away). -/
structure EmployeeCreationInput where
  matricule : String
  site_id : Nat
  department_id : Nat
  service_id : Nat
  team_id : Nat
  position : String
  fonction : String
  user_id : Option Nat
  deriving DecidableEq, Repr

/-- Joi employeeCreationSchema constraints on the modelled fields: ids are
integers at least 1, strings are required hence nonempty. -/
def validCreationInput (i : EmployeeCreationInput) : Bool :=
  i.matricule != "" && 1 ≤ i.site_id && 1 ≤ i.department_id &&
  1 ≤ i.service_id && 1 ≤ i.team_id && i.position != "" && i.fonction != ""

/-- The structure-existence check of POST /api/employee (step 2 of the
route): site, department, service and team ids must exist. -/
def structureExists (db : DB) (i : EmployeeCreationInput) : Bool :=
  db.sites.contains i.site_id && db.departments.contains i.department_id &&
  db.services.contains i.service_id && db.teams.contains i.team_id

/-- The placement carried by a creation request. -/
def hirePlacement (i : EmployeeCreationInput) : Placement :=
  { site_id := i.site_id, department_id := i.department_id,
    service_id := i.service_id, team_id := i.team_id,
    position := i.position, fonction := i.fonction }

/-- The employees row inserted at hire with key newId. -/
def hireEmployeeRow (i : EmployeeCreationInput) (newId : Nat) : Employee :=
  { id := newId, matricule := i.matricule, statut := "Actif",
    placement := hirePlacement i, user_id := i.user_id, position_id := none }

/-- The initial open history row inserted at hire. -/
def hireAffRow (today : Int) (actor newId : Nat)
    (i : EmployeeCreationInput) : Affectation :=
  { employee_id := newId, date_debut := today, date_fin := none,
    motif := "Embauche initiale", commentaire := none,
    created_by_user_id := actor, ancien := none, nouveau := hirePlacement i }

/-- POST /api/employee: create an employee and its initial open
affectation history row, inside one transaction.  today models CURDATE();
actor models req.user.id. -/
def createEmployee (db : DB) (today : Int) (actor : Nat)
    (i : EmployeeCreationInput) : HttpStatus × DB :=
  if !validCreationInput i then (.badRequest400, db)
  else if db.employees.any (fun e => e.matricule = i.matricule) then
    (.conflict409, db)
  else if !structureExists db i then (.badRequest400, db)
  else
    (.created201,
      { db with
          employees := db.employees ++ [hireEmployeeRow i db.nextEmployeeId],
          affectations :=
            db.affectations ++ [hireAffRow today actor db.nextEmployeeId i],
          nextEmployeeId := db.nextEmployeeId + 1 })

/-- The placement-affecting part of the validated body of
PUT /api/employee/:id (employeeUpdateSchema; the non-placement fields of
the schema update other tables or non-placement columns and do not
interact with the claims). -/
structure EmployeeUpdateInput where
  site_id : Option Nat
  department_id : Option Nat
  service_id : Option Nat
  team_id : Option Nat
  position : Option String
  fonction : Option String
  motif_changement : Option String
  commentaire_changement : Option String
  deriving DecidableEq, Repr

/-- Joi employeeUpdateSchema constraints on the modelled fields: present
ids are at least 1, present strings are nonempty. -/
def validUpdateInput (u : EmployeeUpdateInput) : Bool :=
  (match u.site_id with | none => true | some n => 1 ≤ n) &&
  (match u.department_id with | none => true | some n => 1 ≤ n) &&
  (match u.service_id with | none => true | some n => 1 ≤ n) &&
  (match u.team_id with | none => true | some n => 1 ≤ n) &&
  (match u.position with | none => true | some s => s != "") &&
  (match u.fonction with | none => true | some s => s != "") &&
  (match u.motif_changement with | none => true | some s => s != "") &&
  (match u.commentaire_changement with | none => true | some s => true)

/-- One disjunct of the isAffectationChange test: the JS condition
`fieldsToUpdate.f && fieldsToUpdate.f !== current.f` for a number. -/
def numChanged (o : Option Nat) (cur : Nat) : Bool :=
  match o with
  | none => false
  | some n => n != 0 && n != cur

/-- One disjunct of the isAffectationChange test for a string field. -/
def strChanged (o : Option String) (cur : String) : Bool :=
  match o with
  | none => false
  | some s => s != "" && s != cur

/-- The isAffectationChange detection of PUT /api/employee/:id. -/
def isAffectationChange (u : EmployeeUpdateInput) (cur : Placement) : Bool :=
  numChanged u.site_id cur.site_id ||
  numChanged u.department_id cur.department_id ||
  numChanged u.service_id cur.service_id ||
  numChanged u.team_id cur.team_id ||
  strChanged u.position cur.position ||
  strChanged u.fonction cur.fonction

/-- The new-snapshot columns of the inserted history row: the supplied
value when truthy, otherwise the current one (JS `||` fallback). -/
def newPlacement (u : EmployeeUpdateInput) (cur : Placement) : Placement :=
  { site_id := jsOrNum u.site_id cur.site_id,
    department_id := jsOrNum u.department_id cur.department_id,
    service_id := jsOrNum u.service_id cur.service_id,
    team_id := jsOrNum u.team_id cur.team_id,
    position := jsOrStr u.position cur.position,
    fonction := jsOrStr u.fonction cur.fonction }

/-- buildUpdateQuery on the employees table: a field enters the SET clause
exactly when it is present in the update (JS `!== undefined`). -/
def applyLiveUpdate (u : EmployeeUpdateInput) (p : Placement) : Placement :=
  { site_id := u.site_id.getD p.site_id,
    department_id := u.department_id.getD p.department_id,
    service_id := u.service_id.getD p.service_id,
    team_id := u.team_id.getD p.team_id,
    position := u.position.getD p.position,
    fonction := u.fonction.getD p.fonction }

/-- Rows matched by the history-closing UPDATE: the open rows of one
employee. -/
def isOpenFor (eid : Nat) (a : Affectation) : Bool :=
  a.employee_id = eid && a.date_fin = none

/-- The greatest date_debut among the open rows of eid (the ORDER BY
date_debut DESC of the closing UPDATE). -/
def latestOpenStart (l : List Affectation) (eid : Nat) : Option Int :=
  (l.filter (isOpenFor eid)).foldl
    (fun acc a =>
      match acc with
      | none => some a.date_debut
      | some d => some (max d a.date_debut)) none

/-- Apply f to the first row satisfying p, keeping the rest unchanged. -/
def mapFirstSuch (p : Affectation → Bool) (f : Affectation → Affectation) :
    List Affectation → List Affectation
  | [] => []
  | a :: rest => if p a then f a :: rest else a :: mapFirstSuch p f rest

/-- The UPDATE ... WHERE employee_id = ? AND date_fin IS NULL ORDER BY
date_debut DESC LIMIT 1 of PUT /api/employee/:id: close the single open
row with the latest start (ties broken by row order; under the
one-open-row invariant the matched row is unique anyway). -/
def closeLatestOpen (l : List Affectation) (eid : Nat)
    (f : Affectation → Affectation) : List Affectation :=
  match latestOpenStart l eid with
  | none => l
  | some m => mapFirstSuch (fun a => isOpenFor eid a && a.date_debut = m) f l

/-- The closing UPDATE applied to the open history row by a
placement-changing update: date_fin becomes yesterday, the comment becomes
the closure phrase around the motif, created_by becomes the acting user. -/
def closeAffRow (today : Int) (actor : Nat) (motif : String)
    (a : Affectation) : Affectation :=
  { a with date_fin := some (today - 1),
           commentaire := some ("Affectation terminée suite à: " ++ motif),
           created_by_user_id := actor }

/-- The history row inserted by a placement-changing update: old snapshot
is the pre-update placement, new snapshot is the JS-fallback merge of the
update over it. -/
def newAffRow (today : Int) (actor eid : Nat) (u : EmployeeUpdateInput)
    (cur : Employee) : Affectation :=
  { employee_id := eid, date_debut := today, date_fin := none,
    motif := u.motif_changement.getD "",
    commentaire := jsStrOrNull u.commentaire_changement,
    created_by_user_id := actor,
    ancien := some cur.placement,
    nouveau := newPlacement u cur.placement }

/-- PUT /api/employee/:id: detect an affectation change, demand a motif
for it, close the open history row as of yesterday, insert the new history
row, and apply the live update, all in one transaction.  Returns the HTTP
status, the affectationChanged flag of the response, and the next state. -/
def updateEmployee (db : DB) (today : Int) (actor : Nat) (eid : Nat)
    (u : EmployeeUpdateInput) : HttpStatus × Bool × DB :=
  if !validUpdateInput u then (.badRequest400, false, db)
  else
    match db.employees.find? (fun e => e.id = eid) with
    | none => (.notFound404, false, db)
    | some cur =>
      if isAffectationChange u cur.placement && !truthyStr u.motif_changement then
        (.badRequest400, false, db)
      else
        (.ok200, isAffectationChange u cur.placement,
          { db with
              affectations :=
                if isAffectationChange u cur.placement then
                  closeLatestOpen db.affectations eid
                    (closeAffRow today actor
                      (jsOrStr u.motif_changement "Mutation/Changement de poste"))
                    ++ [newAffRow today actor eid u cur]
                else db.affectations,
              employees := db.employees.map (fun e =>
                if e.id = eid then { e with placement := applyLiveUpdate u e.placement }
                else e) })

/-- DELETE /api/employee/:id: soft archive.  The first UPDATE sets statut
to Licencié WHERE id = ?; mysql2 connects with the CLIENT_FOUND_ROWS flag
by default, so its affectedRows counts MATCHED rows and the 404 branch is
taken exactly when no employees row has this id.  Then every open history
row of the employee is closed with today and the user link is severed. -/
def archiveEmployee (db : DB) (today : Int) (actor : Nat) (eid : Nat) :
    HttpStatus × DB :=
  if db.employees.all (fun e => e.id ≠ eid) then (.notFound404, db)
  else
    (.ok200,
      { db with
          employees :=
            (db.employees.map (fun e =>
              if e.id = eid then { e with statut := "Licencié" } else e)).map
              (fun e => if e.id = eid then { e with user_id := none } else e),
          affectations := db.affectations.map (fun a =>
            if a.employee_id = eid && a.date_fin = none then
              { a with date_fin := some today,
                       motif := "Licenciement/Archivage par " ++ "Procédure de départ",
                       created_by_user_id := actor }
            else a) })

/-- The validated body of POST /api/hr/contracts (contractSchema). -/
structure ContractInput where
  employee_id : Nat
  type_contrat : String
  date_debut : Int
  date_fin_prevue : Option Int
  position_id : Nat
  salaire_de_base : ℚ
  notes_rh : Option String
  document_url : Option String
  is_avenant : Bool
  parent_contract_id : Option Nat
  deriving DecidableEq, Repr

/-- Joi contractSchema constraints: known contract type, end date after
start when present and absent for CDI, ids at least 1, nonnegative salary,
parent contract required for an avenant. -/
def validContractInput (i : ContractInput) : Bool :=
  1 ≤ i.employee_id &&
  (["CDI", "CDD", "Stage", "Consultant", "Saisonnier", "Apprentissage"].contains
    i.type_contrat) &&
  (match i.date_fin_prevue with | none => true | some d => i.date_debut ≤ d) &&
  (i.type_contrat != "CDI" || i.date_fin_prevue = none) &&
  0 ≤ i.salaire_de_base && 1 ≤ i.position_id &&
  (!i.is_avenant || i.parent_contract_id.isSome)

/-- The contracts row inserted for input i with key cid. -/
def contractRow (i : ContractInput) (cid : Nat) (defaultStatut : String) :
    Contract :=
  { id := cid, employee_id := i.employee_id,
    type_contrat := i.type_contrat, date_debut := i.date_debut,
    date_fin_prevue := i.date_fin_prevue, position_id := i.position_id,
    salaire_de_base := i.salaire_de_base, notes_rh := i.notes_rh,
    document_url := i.document_url, is_avenant := i.is_avenant,
    parent_contract_id := i.parent_contract_id, statut := defaultStatut }

/-- POST /api/hr/contracts: reject when a non-avenant is requested while
an active non-avenant contract exists; otherwise insert the contract (its
statut column takes the table default, kept abstract as defaultStatut) and,
for a non-avenant, mirror the position onto the employees row. -/
def createContract (db : DB) (defaultStatut : String) (i : ContractInput) :
    HttpStatus × DB :=
  if !validContractInput i then (.badRequest400, db)
  else if db.employees.all (fun e => !(e.id = i.employee_id && e.statut = "Actif"))
  then (.notFound404, db)
  else if !i.is_avenant &&
      db.contracts.any (fun c =>
        c.employee_id = i.employee_id && c.statut = "Actif" && !c.is_avenant)
  then (.conflict409, db)
  else
    (.created201,
      { db with
          contracts := db.contracts ++ [contractRow i db.nextContractId defaultStatut],
          employees :=
            if !i.is_avenant then
              db.employees.map (fun e =>
                if e.id = i.employee_id then { e with position_id := some i.position_id }
                else e)
            else db.employees,
          nextContractId := db.nextContractId + 1 })

/-- The validated body of POST /api/time/leaves (leaveRequestSchema). -/
structure LeaveInput where
  employee_id : Nat
  type_conge : String
  date_debut : Int
  date_fin : Int
  nb_jours : ℚ
  motif_employe : Option String
  deriving DecidableEq, Repr

/-- Joi leaveRequestSchema constraints: id at least 1, nonempty type,
start not in the past, end not before start, at least half a day. -/
def validLeaveInput (today : Int) (i : LeaveInput) : Bool :=
  1 ≤ i.employee_id && i.type_conge != "" && today ≤ i.date_debut &&
  i.date_debut ≤ i.date_fin && (1 / 2 : ℚ) ≤ i.nb_jours

/-- The statuses that block a new overlapping request. -/
def pendingStatus (s : String) : Bool :=
  s = "Soumis" || s = "En attente" || s = "Approuvé"

/-- The three-disjunct SQL overlap test of POST /api/time/leaves:
new start inside the existing range, new end inside the existing range, or
existing start inside the new range. -/
def sqlOverlap (i : LeaveInput) (r : LeaveRequest) : Bool :=
  (r.date_debut ≤ i.date_debut && i.date_debut ≤ r.date_fin) ||
  (r.date_debut ≤ i.date_fin && i.date_fin ≤ r.date_fin) ||
  (i.date_debut ≤ r.date_debut && r.date_debut ≤ i.date_fin)

/-- The leave_requests row inserted for input i with key rid. -/
def leaveRow (i : LeaveInput) (rid : Nat) : LeaveRequest :=
  { id := rid, employee_id := i.employee_id, type_conge := i.type_conge,
    date_debut := i.date_debut, date_fin := i.date_fin, nb_jours := i.nb_jours,
    motif_employe := jsStrOrNull i.motif_employe, statut_actuel := "Soumis" }

/-- The workflow row auto-inserted at submission. -/
def validationRow (rid : Nat) (actor : Nat) : LeaveValidation :=
  { request_id := rid, validateur_id := actor,
    niveau_validation := "Soumission Employé", decision := "En attente",
    commentaire := "Demande soumise par l\x27employé." }

/-- POST /api/time/leaves: reject when the range overlaps a pending or
approved request of the same employee, otherwise insert the request and
its first validation step in one transaction. -/
def createLeave (db : DB) (today : Int) (actor : Nat) (i : LeaveInput) :
    HttpStatus × DB :=
  if !validLeaveInput today i then (.badRequest400, db)
  else if db.employees.all (fun e => !(e.id = i.employee_id && e.statut = "Actif"))
  then (.notFound404, db)
  else if db.leave_requests.any (fun r =>
      r.employee_id = i.employee_id && pendingStatus r.statut_actuel &&
      sqlOverlap i r)
  then (.conflict409, db)
  else
    (.created201,
      { db with
          leave_requests := db.leave_requests ++ [leaveRow i db.nextRequestId],
          leave_validations :=
            db.leave_validations ++ [validationRow db.nextRequestId actor],
          nextRequestId := db.nextRequestId + 1 })

/-- The rows of the affectation history belonging to one employee, in
insertion order. -/
def affectationsOf (db : DB) (eid : Nat) : List Affectation :=
  db.affectations.filter (fun a => a.employee_id = eid)

/-- Number of open history rows of one employee. -/
def openCount (db : DB) (eid : Nat) : Nat :=
  (db.affectations.filter (isOpenFor eid)).length

/-- Timeline continuity between two consecutive history rows: the old
snapshot of the later row is the new snapshot of the earlier one. -/
def Follows (a b : Affectation) : Prop := b.ancien = some a.nouveau

instance : DecidableRel Follows := fun a b =>
  inferInstanceAs (Decidable (b.ancien = some a.nouveau))

/-- The last history row of the list is open and carries the given
placement as new snapshot. -/
def lastOpenMatches (l : List Affectation) (p : Placement) : Bool :=
  match l.getLast? with
  | none => false
  | some a => decide (a.date_fin = none) && decide (a.nouveau = p)

/-- The affectation-history invariant maintained by hiring and updating:
fresh ids bound the rows, employee ids are unique, and every employee has
exactly one open history row, a continuous timeline, and a last (open) row
whose new snapshot is the live placement. -/
def HistInv (db : DB) : Prop :=
  (∀ a ∈ db.affectations, a.employee_id < db.nextEmployeeId) ∧
  (∀ e ∈ db.employees, e.id < db.nextEmployeeId) ∧
  (db.employees.map Employee.id).Nodup ∧
  (∀ e ∈ db.employees,
    openCount db e.id = 1 ∧
    List.Chain' Follows (affectationsOf db e.id) ∧
    lastOpenMatches (affectationsOf db e.id) e.placement = true)

/-- An initial store: structure tables in place, no employees and no
history yet. -/
def initDB (sites departments services teams : List Nat) : DB :=
  { sites := sites, departments := departments, services := services,
    teams := teams, employees := [], affectations := [], contracts := [],
    leave_requests := [], leave_validations := [],
    nextEmployeeId := 1, nextContractId := 1, nextRequestId := 1 }

/-- One step of the employee-lifecycle operations named by the affectation
claims: hiring (POST /api/employee) or updating (PUT /api/employee/:id). -/
inductive EmpStep : DB → DB → Prop where
  | create (db : DB) (today : Int) (actor : Nat) (i : EmployeeCreationInput) :
      EmpStep db (createEmployee db today actor i).2
  | update (db : DB) (today : Int) (actor : Nat) (eid : Nat)
      (u : EmployeeUpdateInput) :
      EmpStep db (updateEmployee db today actor eid u).2.2

/-- Stores reachable from an initial store by hire and update steps. -/
inductive EmpReachable : DB → Prop where
  | init (sites departments services teams : List Nat) :
      EmpReachable (initDB sites departments services teams)
  | step {db db' : DB} : EmpReachable db → EmpStep db db' → EmpReachable db'

-- ######################################################################
-- Concrete fixtures used by the witness theorems
-- ######################################################################

/-- A concrete placement. -/
def wPlacement : Placement :=
  { site_id := 1, department_id := 1, service_id := 1, team_id := 1,
    position := "Agent", fonction := "Production" }

/-- A concrete active employee. -/
def wEmployee : Employee :=
  { id := 1, matricule := "M001", statut := "Actif", placement := wPlacement,
    user_id := some 5, position_id := none }

/-- The open hire record of wEmployee. -/
def wAffOpen : Affectation :=
  { employee_id := 1, date_debut := 0, date_fin := none,
    motif := "Embauche initiale", commentaire := none,
    created_by_user_id := 9, ancien := none, nouveau := wPlacement }

/-- A store holding one hired active employee. -/
def wDB : DB :=
  { sites := [1], departments := [1], services := [1], teams := [1],
    employees := [wEmployee], affectations := [wAffOpen], contracts := [],
    leave_requests := [], leave_validations := [],
    nextEmployeeId := 2, nextContractId := 1, nextRequestId := 1 }

/-- A store in which the employee has already been archived. -/
def wArchivedDB : DB :=
  { wDB with
    employees := [{ wEmployee with statut := "Licencié", user_id := none }],
    affectations := [{ wAffOpen with
      date_fin := some 50,
      motif := "Licenciement/Archivage par " ++ "Procédure de départ" }] }

/-- An update that changes the position but carries no motif. -/
def wUpdateNoMotif : EmployeeUpdateInput :=
  { site_id := none, department_id := none, service_id := none,
    team_id := none, position := some "Chef", fonction := none,
    motif_changement := none, commentaire_changement := none }

/-- An update that changes the position with a motif. -/
def wUpdateWithMotif : EmployeeUpdateInput :=
  { wUpdateNoMotif with motif_changement := some "Promotion" }

/-- An active non-avenant contract of wEmployee. -/
def wContract : Contract :=
  { id := 1, employee_id := 1, type_contrat := "CDI", date_debut := 0,
    date_fin_prevue := none, position_id := 3, salaire_de_base := 100000,
    notes_rh := none, document_url := none, is_avenant := false,
    parent_contract_id := none, statut := "Actif" }

/-- The store wDB with that active contract on file. -/
def wDBwithContract : DB := { wDB with contracts := [wContract], nextContractId := 2 }

/-- A non-avenant contract request for the same employee. -/
def wContractInput : ContractInput :=
  { employee_id := 1, type_contrat := "CDD", date_debut := 10,
    date_fin_prevue := some 200, position_id := 4, salaire_de_base := 90000,
    notes_rh := none, document_url := none, is_avenant := false,
    parent_contract_id := none }

/-- An avenant referencing the active contract. -/
def wAvenantInput : ContractInput :=
  { wContractInput with is_avenant := true, parent_contract_id := some 1 }

/-- A pending leave request of wEmployee over days 110..120. -/
def wLeaveReq : LeaveRequest :=
  { id := 1, employee_id := 1, type_conge := "Annuel", date_debut := 110,
    date_fin := 120, nb_jours := 10, motif_employe := none,
    statut_actuel := "Soumis" }

/-- The store wDB with that pending request on file. -/
def wDBwithLeave : DB :=
  { wDB with leave_requests := [wLeaveReq], nextRequestId := 2 }

/-- A leave submission overlapping wLeaveReq. -/
def wLeaveOverlap : LeaveInput :=
  { employee_id := 1, type_conge := "Annuel", date_debut := 115,
    date_fin := 125, nb_jours := 5, motif_employe := none }

/-- A leave submission disjoint from wLeaveReq. -/
def wLeaveOk : LeaveInput :=
  { employee_id := 1, type_conge := "Annuel", date_debut := 130,
    date_fin := 131, nb_jours := 2, motif_employe := none }

/-- A concrete employee-creation request. -/
def wCreateInput : EmployeeCreationInput :=
  { matricule := "M001", site_id := 1, department_id := 1, service_id := 1,
    team_id := 1, position := "Agent", fonction := "Production",
    user_id := some 5 }

/-- The store obtained by hiring wCreateInput into a fresh structure. -/
def wHiredDB : DB :=
  (createEmployee (initDB [1] [1] [1] [1]) 0 9 wCreateInput).2

-- ######################################################################
-- Lemmas about the hours engine
-- ######################################################################

theorem round2_eq_self {q : ℚ} (h : ∃ k : ℤ, q * 100 = (k : ℚ)) :
    round2 q = q := by
  obtain ⟨k, hk⟩ := h
  have hq : q = (k : ℚ) / 100 := by
    rw [eq_div_iff (by norm_num : (100 : ℚ) ≠ 0)]; exact hk
  rw [hq, round2, div_mul_cancel₀ _ (by norm_num : (100 : ℚ) ≠ 0)]
  rw [Int.floor_int_add]
  have h12 : ⌊(1 / 2 : ℚ)⌋ = 0 := by with_unfolding_all decide
  rw [h12, add_zero]

theorem round2_quarter {q : ℚ} (h : IsQuarter q) : round2 q = q := by
  obtain ⟨k, rfl⟩ := h
  exact round2_eq_self ⟨25 * k, by push_cast; ring⟩

theorem isQuarter_totalHoursRounded (e x : HM) :
    IsQuarter (totalHoursRounded e x) := ⟨_, rfl⟩

theorem IsQuarter.min {a b : ℚ} (ha : IsQuarter a) (hb : IsQuarter b) :
    IsQuarter (min a b) := by
  rcases le_total a b with h | h
  · rwa [min_eq_left h]
  · rwa [min_eq_right h]

theorem IsQuarter.max {a b : ℚ} (ha : IsQuarter a) (hb : IsQuarter b) :
    IsQuarter (max a b) := by
  rcases le_total a b with h | h
  · rwa [max_eq_right h]
  · rwa [max_eq_left h]

theorem IsQuarter.sub {a b : ℚ} (ha : IsQuarter a) (hb : IsQuarter b) :
    IsQuarter (a - b) := by
  obtain ⟨j, rfl⟩ := ha
  obtain ⟨k, rfl⟩ := hb
  exact ⟨j - k, by push_cast; ring⟩

theorem IsQuarter.add {a b : ℚ} (ha : IsQuarter a) (hb : IsQuarter b) :
    IsQuarter (a + b) := by
  obtain ⟨j, rfl⟩ := ha
  obtain ⟨k, rfl⟩ := hb
  exact ⟨j + k, by push_cast; ring⟩

/-- Unfolding of the ordinary-day branch (isHoliday = isSunday = false). -/
theorem calculateHours_ordinary (e x : HM) (maj : ℚ) :
    calculateHours e x false false maj =
      { totalHours := totalHoursRounded e x
        heures_normales := round2 (min (totalHoursRounded e x) 8)
        heures_sup_15 := round2 (min (max 0 (totalHoursRounded e x - 8)) 2)
        heures_sup_40 := round2 (max 0 (max 0 (totalHoursRounded e x - 8) - 2))
        heures_supplementaires :=
          round2 (min (max 0 (totalHoursRounded e x - 8)) 2
            + max 0 (max 0 (totalHoursRounded e x - 8) - 2))
        majoration_pourcentage := 0
        panierRepas := decide (totalHoursRounded e x ≥ 10) } := rfl

/-- Unfolding of the combined Sunday-and-holiday branch. -/
theorem calculateHours_both (e x : HM) (maj : ℚ) :
    calculateHours e x true true maj =
      { totalHours := totalHoursRounded e x
        heures_normales := round2 0
        heures_sup_15 := 0
        heures_sup_40 := 0
        heures_supplementaires := round2 (totalHoursRounded e x)
        majoration_pourcentage := round2 100
        panierRepas := decide (totalHoursRounded e x ≥ 10) } := rfl

/-- Unfolding of the holiday-only branch. -/
theorem calculateHours_holiday (e x : HM) (maj : ℚ) :
    calculateHours e x true false maj =
      { totalHours := totalHoursRounded e x
        heures_normales := round2 0
        heures_sup_15 := 0
        heures_sup_40 := 0
        heures_supplementaires := round2 (totalHoursRounded e x)
        majoration_pourcentage := round2 maj
        panierRepas := decide (totalHoursRounded e x ≥ 10) } := rfl

/-- Unfolding of the Sunday-only branch. -/
theorem calculateHours_sunday (e x : HM) (maj : ℚ) :
    calculateHours e x false true maj =
      { totalHours := totalHoursRounded e x
        heures_normales := round2 0
        heures_sup_15 := 0
        heures_sup_40 := 0
        heures_supplementaires := round2 (totalHoursRounded e x)
        majoration_pourcentage := round2 60
        panierRepas := decide (totalHoursRounded e x ≥ 10) } := rfl

theorem round2_zero : round2 0 = 0 :=
  round2_quarter ⟨0, by norm_num⟩

theorem round2_totalHoursRounded (e x : HM) :
    round2 (totalHoursRounded e x) = totalHoursRounded e x :=
  round2_quarter (isQuarter_totalHoursRounded e x)

-- ######################################################################
-- Claim theorems about the hours engine
-- ######################################################################

/-- Claim C1: on an ordinary day (isHoliday = false, isSunday = false) with
exit later than entry, calculateHours returns heures_normales =
min(totalHoursRounded, 8), heures_sup_15 = min(overtime, 2), heures_sup_40
= max(0, overtime - 2) with overtime = max(0, totalHoursRounded - 8),
heures_supplementaires = heures_sup_15 + heures_sup_40 and
majoration_pourcentage = 0; and calculateHours("08:00","17:00", false,
false, 60) yields 8.00 normal hours, 1.00 hours in the 15 percent tier and
0.00 in the 40 percent tier. -/
theorem claim_C1_ordinary_day_tiers (e x : HM) (maj : ℚ)
    (hx : timeToMinutes e < timeToMinutes x) :
    ((calculateHours e x false false maj).heures_normales
        = min (totalHoursRounded e x) 8 ∧
      (calculateHours e x false false maj).heures_sup_15
        = min (max 0 (totalHoursRounded e x - 8)) 2 ∧
      (calculateHours e x false false maj).heures_sup_40
        = max 0 (max 0 (totalHoursRounded e x - 8) - 2) ∧
      (calculateHours e x false false maj).heures_supplementaires
        = (calculateHours e x false false maj).heures_sup_15
            + (calculateHours e x false false maj).heures_sup_40 ∧
      (calculateHours e x false false maj).majoration_pourcentage = 0) ∧
    calculateHours ⟨8, 0⟩ ⟨17, 0⟩ false false 60 =
      { totalHours := 9, heures_normales := 8, heures_sup_15 := 1,
        heures_sup_40 := 0, heures_supplementaires := 1,
        majoration_pourcentage := 0, panierRepas := false } := by
  have ht : IsQuarter (totalHoursRounded e x) := isQuarter_totalHoursRounded e x
  have h8 : IsQuarter (8 : ℚ) := ⟨32, by norm_num⟩
  have h2 : IsQuarter (2 : ℚ) := ⟨8, by norm_num⟩
  have h0 : IsQuarter (0 : ℚ) := ⟨0, by norm_num⟩
  have hov : IsQuarter (max 0 (totalHoursRounded e x - 8)) := h0.max (ht.sub h8)
  have h15 : IsQuarter (min (max 0 (totalHoursRounded e x - 8)) 2) := hov.min h2
  have h40 : IsQuarter (max 0 (max 0 (totalHoursRounded e x - 8) - 2)) :=
    h0.max (hov.sub h2)
  refine ⟨⟨?_, ?_, ?_, ?_, ?_⟩, by with_unfolding_all decide⟩
  · rw [calculateHours_ordinary]; exact round2_quarter (ht.min h8)
  · rw [calculateHours_ordinary]; exact round2_quarter h15
  · rw [calculateHours_ordinary]; exact round2_quarter h40
  · rw [calculateHours_ordinary]
    simp only
    rw [round2_quarter (h15.add h40), round2_quarter h15, round2_quarter h40]
  · rw [calculateHours_ordinary]

/-- Witness for claim C1 at the concrete input of the spec example. -/
theorem claim_C1_witness :
    timeToMinutes ⟨8, 0⟩ < timeToMinutes ⟨17, 0⟩ ∧
    calculateHours ⟨8, 0⟩ ⟨17, 0⟩ false false 60 =
      { totalHours := 9, heures_normales := 8, heures_sup_15 := 1,
        heures_sup_40 := 0, heures_supplementaires := 1,
        majoration_pourcentage := 0, panierRepas := false } :=
  ⟨by decide,
    (claim_C1_ordinary_day_tiers ⟨8, 0⟩ ⟨17, 0⟩ 60 (by decide)).2⟩

/-- Claim C2: first-match-wins classification of special days.  Sunday and
holiday together give majoration 100 (the passed majorationFeriee is
ignored); holiday alone gives the passed majorationFeriee; Sunday alone
gives 60; in the three branches the tiered fields are 0 and all rounded
hours land in heures_supplementaires; and
calculateHours("08:00","20:15", true, false, 60) = (0, 0, 0, 12.25, 60).
The hypothesis hmaj records that the holiday majoration, a DECIMAL
percentage read from the jours_feries table, has at most two fractional
digits, so that rounding the output field to two digits returns it
unchanged. -/
theorem claim_C2_special_day_priority (e x : HM) (maj : ℚ)
    (hx : timeToMinutes e < timeToMinutes x)
    (hmaj : ∃ k : ℤ, maj * 100 = (k : ℚ)) :
    (calculateHours e x true true maj =
      { totalHours := totalHoursRounded e x
        heures_normales := 0
        heures_sup_15 := 0
        heures_sup_40 := 0
        heures_supplementaires := totalHoursRounded e x
        majoration_pourcentage := 100
        panierRepas := decide (totalHoursRounded e x ≥ 10) } ∧
     calculateHours e x true false maj =
      { totalHours := totalHoursRounded e x
        heures_normales := 0
        heures_sup_15 := 0
        heures_sup_40 := 0
        heures_supplementaires := totalHoursRounded e x
        majoration_pourcentage := maj
        panierRepas := decide (totalHoursRounded e x ≥ 10) } ∧
     calculateHours e x false true maj =
      { totalHours := totalHoursRounded e x
        heures_normales := 0
        heures_sup_15 := 0
        heures_sup_40 := 0
        heures_supplementaires := totalHoursRounded e x
        majoration_pourcentage := 60
        panierRepas := decide (totalHoursRounded e x ≥ 10) }) ∧
    calculateHours ⟨8, 0⟩ ⟨20, 15⟩ true false 60 =
      { totalHours := 49/4, heures_normales := 0, heures_sup_15 := 0,
        heures_sup_40 := 0, heures_supplementaires := 49/4,
        majoration_pourcentage := 60, panierRepas := true } := by
  have h100 : round2 (100 : ℚ) = 100 := round2_eq_self ⟨10000, by norm_num⟩
  have h60 : round2 (60 : ℚ) = 60 := round2_eq_self ⟨6000, by norm_num⟩
  have hm : round2 maj = maj := round2_eq_self hmaj
  refine ⟨⟨?_, ?_, ?_⟩, by with_unfolding_all decide⟩
  · rw [calculateHours_both, round2_zero, round2_totalHoursRounded, h100]
  · rw [calculateHours_holiday, round2_zero, round2_totalHoursRounded, hm]
  · rw [calculateHours_sunday, round2_zero, round2_totalHoursRounded, h60]

/-- Witness for claim C2 at the concrete input of the spec example. -/
theorem claim_C2_witness :
    timeToMinutes ⟨8, 0⟩ < timeToMinutes ⟨20, 15⟩ ∧
    calculateHours ⟨8, 0⟩ ⟨20, 15⟩ true false 60 =
      { totalHours := 49/4, heures_normales := 0, heures_sup_15 := 0,
        heures_sup_40 := 0, heures_supplementaires := 49/4,
        majoration_pourcentage := 60, panierRepas := true } :=
  ⟨by decide,
    (claim_C2_special_day_priority ⟨8, 0⟩ ⟨20, 15⟩ 60 (by decide)
      ⟨6000, by norm_num⟩).2⟩

/-- Claim C9: on every branch, the returned totalHours is the raw duration
rounded up to the nearest quarter-hour, ceil(rawHours * 4) / 4, and the
meal-allowance flag is true exactly when that rounded figure is at least
ten hours. -/
theorem claim_C9_rounding_and_panier (e x : HM) (hol sun : Bool) (maj : ℚ)
    (hx : timeToMinutes e < timeToMinutes x) :
    (calculateHours e x hol sun maj).totalHours
        = ((⌈rawHours e x * 4⌉ : ℤ) : ℚ) / 4 ∧
    ((calculateHours e x hol sun maj).panierRepas = true ↔
        10 ≤ ((⌈rawHours e x * 4⌉ : ℤ) : ℚ) / 4) := by
  have hT : totalHoursRounded e x = ((⌈rawHours e x * 4⌉ : ℤ) : ℚ) / 4 := rfl
  cases hol <;> cases sun <;>
    simp [calculateHours_ordinary, calculateHours_both, calculateHours_holiday,
      calculateHours_sunday, hT, ge_iff_le]

/-- Witness for claim C9 on a holiday Sunday shift of 9:00 to 19:40. -/
theorem claim_C9_witness :
    timeToMinutes ⟨9, 0⟩ < timeToMinutes ⟨19, 40⟩ ∧
    ((calculateHours ⟨9, 0⟩ ⟨19, 40⟩ true true 60).totalHours
        = ((⌈rawHours ⟨9, 0⟩ ⟨19, 40⟩ * 4⌉ : ℤ) : ℚ) / 4 ∧
      ((calculateHours ⟨9, 0⟩ ⟨19, 40⟩ true true 60).panierRepas = true ↔
        10 ≤ ((⌈rawHours ⟨9, 0⟩ ⟨19, 40⟩ * 4⌉ : ℤ) : ℚ) / 4)) :=
  ⟨by decide, claim_C9_rounding_and_panier ⟨9, 0⟩ ⟨19, 40⟩ true true 60 (by decide)⟩

/-- Claim C10: when heure_sortie is not after heure_entree the function
does not reject the input: every branch returns a nonpositive totalHours
(the minutes subtraction is nonpositive and rounding up to a quarter keeps
it nonpositive), and on an ordinary day heures_normales can even be
negative, as at entry 10:00 and exit 08:00. -/
theorem claim_C10_no_guard_on_inverted_times (e x : HM) (hol sun : Bool)
    (maj : ℚ) (hx : timeToMinutes x ≤ timeToMinutes e) :
    (calculateHours e x hol sun maj).totalHours ≤ 0 ∧
    (calculateHours ⟨10, 0⟩ ⟨8, 0⟩ false false 0).heures_normales = -2 := by
  have hraw : rawHours e x ≤ 0 := by
    unfold rawHours
    rw [div_nonpos_iff]
    right
    constructor
    · exact_mod_cast sub_nonpos.mpr hx
    · norm_num
  have hmul : rawHours e x * 4 ≤ 0 := by nlinarith
  have hceil : ⌈rawHours e x * 4⌉ ≤ 0 := by
    rw [show (0 : ℤ) = ⌈(0 : ℚ)⌉ from by simp]
    exact Int.ceil_le_ceil hmul
  have hT : totalHoursRounded e x ≤ 0 := by
    unfold totalHoursRounded
    rw [div_nonpos_iff]
    right
    constructor
    · exact_mod_cast hceil
    · norm_num
  refine ⟨?_, by with_unfolding_all decide⟩
  cases hol <;> cases sun <;>
    simpa [calculateHours_ordinary, calculateHours_both, calculateHours_holiday,
      calculateHours_sunday] using hT

/-- Witness for claim C10 at entry 10:00, exit 08:00. -/
theorem claim_C10_witness :
    timeToMinutes ⟨8, 0⟩ ≤ timeToMinutes ⟨10, 0⟩ ∧
    ((calculateHours ⟨10, 0⟩ ⟨8, 0⟩ false false 0).totalHours ≤ 0 ∧
      (calculateHours ⟨10, 0⟩ ⟨8, 0⟩ false false 0).heures_normales = -2) :=
  ⟨by decide, claim_C10_no_guard_on_inverted_times ⟨10, 0⟩ ⟨8, 0⟩ false false 0 (by decide)⟩

-- ######################################################################
-- Claim theorems about the stateful routes
-- ######################################################################

/-- Claim C5: an update that changes a placement-affecting field of an
existing employee without supplying motif_changement fails with 400 and
leaves the store untouched: the returned state is exactly the input state,
so no affectation row is written and the live employees row is unchanged. -/
theorem claim_C5_update_requires_motif (db : DB) (today : Int)
    (actor eid : Nat) (u : EmployeeUpdateInput) (cur : Employee)
    (hvalid : validUpdateInput u = true)
    (hfind : db.employees.find? (fun e => e.id = eid) = some cur)
    (hchg : isAffectationChange u cur.placement = true)
    (hnomotif : u.motif_changement = none) :
    updateEmployee db today actor eid u = (.badRequest400, false, db) := by
  have htr : truthyStr u.motif_changement = false := by
    rw [hnomotif]; rfl
  simp [updateEmployee, hvalid, hfind, hchg, htr]

/-- Witness for claim C5: a position change without motif on a one-employee
store. -/
theorem claim_C5_witness :
    validUpdateInput wUpdateNoMotif = true ∧
    wDB.employees.find? (fun e => e.id = 1) = some wEmployee ∧
    isAffectationChange wUpdateNoMotif wEmployee.placement = true ∧
    wUpdateNoMotif.motif_changement = none ∧
    updateEmployee wDB 100 9 1 wUpdateNoMotif = (.badRequest400, false, wDB) :=
  ⟨by decide, by decide, by decide, by decide,
    claim_C5_update_requires_motif wDB 100 9 1 wUpdateNoMotif wEmployee
      (by decide) (by decide) (by decide) (by decide)⟩

/-- Claim C7: a non-avenant contract request for an employee holding an
active non-avenant contract is answered 409 with the store unchanged; a
successful non-avenant insertion mirrors the new position onto the
employees row; an avenant is never subjected to the exclusivity check
(it succeeds whatever contracts exist) and leaves the employees rows
untouched. -/
theorem claim_C7_contract_exclusivity :
    (∀ (db : DB) (defSt : String) (i : ContractInput) (c : Contract),
      validContractInput i = true → i.is_avenant = false →
      (∃ e ∈ db.employees, e.id = i.employee_id ∧ e.statut = "Actif") →
      c ∈ db.contracts → c.employee_id = i.employee_id → c.statut = "Actif" →
      c.is_avenant = false →
      createContract db defSt i = (.conflict409, db)) ∧
    (∀ (db : DB) (defSt : String) (i : ContractInput),
      validContractInput i = true → i.is_avenant = false →
      (∃ e ∈ db.employees, e.id = i.employee_id ∧ e.statut = "Actif") →
      (∀ c ∈ db.contracts,
        ¬(c.employee_id = i.employee_id ∧ c.statut = "Actif" ∧ c.is_avenant = false)) →
      (createContract db defSt i).1 = .created201 ∧
      (createContract db defSt i).2.contracts
        = db.contracts ++ [contractRow i db.nextContractId defSt] ∧
      ∀ e ∈ (createContract db defSt i).2.employees,
        e.id = i.employee_id → e.position_id = some i.position_id) ∧
    (∀ (db : DB) (defSt : String) (i : ContractInput),
      validContractInput i = true → i.is_avenant = true →
      (∃ e ∈ db.employees, e.id = i.employee_id ∧ e.statut = "Actif") →
      createContract db defSt i =
        (.created201,
          { db with contracts := db.contracts ++ [contractRow i db.nextContractId defSt],
                    nextContractId := db.nextContractId + 1 })) := by
  refine ⟨?_, ?_, ?_⟩
  · intro db defSt i c hvalid hnav hemp hc hce hcs hca
    obtain ⟨e, he, hid, hst⟩ := hemp
    have hcond3 :
        (!i.is_avenant &&
          db.contracts.any (fun c =>
            c.employee_id = i.employee_id && c.statut = "Actif" && !c.is_avenant))
          = true := by
      rw [hnav]
      simp only [Bool.not_false, Bool.true_and, List.any_eq_true]
      exact ⟨c, hc, by simp [hce, hcs, hca]⟩
    unfold createContract
    split_ifs with h1 h2 h3 h4
    · exact absurd h1 (by simp [hvalid])
    · exact absurd (List.all_eq_true.mp h2 e he) (by simp [hid, hst])
    · rfl
  · intro db defSt i hvalid hnav hemp hnone
    obtain ⟨e, he, hid, hst⟩ := hemp
    have hmain : createContract db defSt i =
        (.created201,
          { db with
              contracts := db.contracts ++ [contractRow i db.nextContractId defSt],
              employees := db.employees.map (fun e =>
                if e.id = i.employee_id then { e with position_id := some i.position_id }
                else e),
              nextContractId := db.nextContractId + 1 }) := by
      unfold createContract
      split_ifs with h1 h2 h3 h4
      · exact absurd h1 (by simp [hvalid])
      · exact absurd (List.all_eq_true.mp h2 e he) (by simp [hid, hst])
      · exfalso
        rw [hnav] at h3
        simp only [Bool.not_false, Bool.true_and, List.any_eq_true] at h3
        obtain ⟨c, hc, hcp⟩ := h3
        simp only [Bool.and_eq_true, Bool.not_eq_true', decide_eq_true_eq] at hcp
        exact hnone c hc ⟨hcp.1.1, hcp.1.2, hcp.2⟩
      · rfl
      · exact absurd (show (!i.is_avenant) = true by simp [hnav]) h4
    refine ⟨by rw [hmain], by rw [hmain], ?_⟩
    intro e' he' hide'
    rw [hmain] at he'
    simp only [List.mem_map] at he'
    obtain ⟨e0, he0, rfl⟩ := he'
    by_cases h : e0.id = i.employee_id
    · rw [if_pos h]
    · rw [if_neg h] at hide' ⊢
      exact absurd hide' h
  · intro db defSt i hvalid hav hemp
    obtain ⟨e, he, hid, hst⟩ := hemp
    unfold createContract
    split_ifs with h1 h2 h3 h4
    · exact absurd h1 (by simp [hvalid])
    · exact absurd (List.all_eq_true.mp h2 e he) (by simp [hid, hst])
    · exact absurd h3 (by rw [hav]; simp)
    · exact absurd h4 (by rw [hav]; simp)
    · rfl

/-- Witness for claim C7: the conflict on wDBwithContract, the mirror on
wDB, and the avenant on wDBwithContract. -/
theorem claim_C7_witness :
    createContract wDBwithContract "Actif" wContractInput
      = (.conflict409, wDBwithContract) ∧
    (createContract wDB "Actif" wContractInput).1 = .created201 ∧
    createContract wDBwithContract "Actif" wAvenantInput
      = (.created201,
          { wDBwithContract with
              contracts := wDBwithContract.contracts
                ++ [contractRow wAvenantInput 2 "Actif"],
              nextContractId := 3 }) := by
  refine ⟨?_, ?_, ?_⟩
  · exact claim_C7_contract_exclusivity.1 wDBwithContract "Actif" wContractInput
      wContract (by with_unfolding_all decide) (by decide)
      ⟨wEmployee, by decide, by decide, by decide⟩
      (by decide) (by decide) (by decide) (by decide)
  · exact (claim_C7_contract_exclusivity.2.1 wDB "Actif" wContractInput
      (by with_unfolding_all decide) (by decide)
      ⟨wEmployee, by decide, by decide, by decide⟩
      (by intro c hc; simp [wDB] at hc)).1
  · exact claim_C7_contract_exclusivity.2.2 wDBwithContract "Actif" wAvenantInput
      (by with_unfolding_all decide) (by decide)
      ⟨wEmployee, by decide, by decide, by decide⟩

/-- Claim C6: a leave submission by an active employee whose range touches
a pending or approved request of the same employee, in any overlap shape
(containment either way or partial overlap, expressed as the two ranges
intersecting), is answered 409 with nothing inserted; a submission whose
range is disjoint from every such request inserts the request row and
appends exactly one validation step at level Soumission Employé with
decision En attente, in the same transaction. -/
theorem claim_C6_leave_overlap :
    (∀ (db : DB) (today : Int) (actor : Nat) (i : LeaveInput) (r : LeaveRequest),
      validLeaveInput today i = true →
      (∃ e ∈ db.employees, e.id = i.employee_id ∧ e.statut = "Actif") →
      r ∈ db.leave_requests → r.employee_id = i.employee_id →
      pendingStatus r.statut_actuel = true →
      r.date_debut ≤ r.date_fin →
      i.date_debut ≤ r.date_fin → r.date_debut ≤ i.date_fin →
      createLeave db today actor i = (.conflict409, db)) ∧
    (∀ (db : DB) (today : Int) (actor : Nat) (i : LeaveInput),
      validLeaveInput today i = true →
      (∃ e ∈ db.employees, e.id = i.employee_id ∧ e.statut = "Actif") →
      (∀ r ∈ db.leave_requests, r.employee_id = i.employee_id →
        pendingStatus r.statut_actuel = true →
        r.date_debut ≤ r.date_fin ∧
          (r.date_fin < i.date_debut ∨ i.date_fin < r.date_debut)) →
      createLeave db today actor i =
        (.created201,
          { db with
              leave_requests := db.leave_requests ++ [leaveRow i db.nextRequestId],
              leave_validations :=
                db.leave_validations ++ [validationRow db.nextRequestId actor],
              nextRequestId := db.nextRequestId + 1 })) := by
  constructor
  · intro db today actor i r hvalid hemp hr hre hpend hrr h1 h2
    obtain ⟨e, he, hid, hst⟩ := hemp
    have hiv : i.date_debut ≤ i.date_fin := by
      simp only [validLeaveInput, Bool.and_eq_true, decide_eq_true_eq] at hvalid
      exact hvalid.1.2
    have hover : sqlOverlap i r = true := by
      simp only [sqlOverlap, Bool.or_eq_true, Bool.and_eq_true, decide_eq_true_eq]
      omega
    have hcond : db.leave_requests.any (fun r =>
        r.employee_id = i.employee_id && pendingStatus r.statut_actuel &&
        sqlOverlap i r) = true :=
      List.any_eq_true.mpr ⟨r, hr, by simp [hre, hpend, hover]⟩
    unfold createLeave
    split_ifs with hv ha hc
    · exact absurd hv (by simp [hvalid])
    · exact absurd (List.all_eq_true.mp ha e he) (by simp [hid, hst])
    · rfl
  · intro db today actor i hvalid hemp hnone
    obtain ⟨e, he, hid, hst⟩ := hemp
    have hiv : i.date_debut ≤ i.date_fin := by
      simp only [validLeaveInput, Bool.and_eq_true, decide_eq_true_eq] at hvalid
      exact hvalid.1.2
    unfold createLeave
    split_ifs with hv ha hc
    · exact absurd hv (by simp [hvalid])
    · exact absurd (List.all_eq_true.mp ha e he) (by simp [hid, hst])
    · exfalso
      rw [List.any_eq_true] at hc
      obtain ⟨r, hr, hp⟩ := hc
      simp only [Bool.and_eq_true, decide_eq_true_eq] at hp
      obtain ⟨⟨hre, hpend⟩, hover⟩ := hp
      obtain ⟨hrr, hdisj⟩ := hnone r hr hre hpend
      simp only [sqlOverlap, Bool.or_eq_true, Bool.and_eq_true,
        decide_eq_true_eq] at hover
      omega
    · rfl

/-- Witness for claim C6: the overlapping submission 115..125 against the
pending request 110..120 is refused; the disjoint submission 130..131 is
inserted with its single validation step. -/
theorem claim_C6_witness :
    createLeave wDBwithLeave 100 5 wLeaveOverlap = (.conflict409, wDBwithLeave) ∧
    createLeave wDBwithLeave 100 5 wLeaveOk =
      (.created201,
        { wDBwithLeave with
            leave_requests := wDBwithLeave.leave_requests ++ [leaveRow wLeaveOk 2],
            leave_validations :=
              wDBwithLeave.leave_validations ++ [validationRow 2 5],
            nextRequestId := 3 }) := by
  constructor
  · exact claim_C6_leave_overlap.1 wDBwithLeave 100 5 wLeaveOverlap wLeaveReq
      (by with_unfolding_all decide) ⟨wEmployee, by decide, by decide, by decide⟩
      (by decide) (by decide) (by decide) (by decide) (by decide) (by decide)
  · exact claim_C6_leave_overlap.2 wDBwithLeave 100 5 wLeaveOk
      (by with_unfolding_all decide) ⟨wEmployee, by decide, by decide, by decide⟩
      (by decide)

/-- Counterexample to claim C8: in wArchivedDB employee 1 is already
archived, yet a second DELETE /api/employee/1 is answered 200, not the 404
the claim asserts: the status-setting UPDATE matches the row by id alone,
and mysql2 reports matched rows (CLIENT_FOUND_ROWS is in its default
connection flags), so affectedRows is 1 and the 404 branch is not taken. -/
theorem claim_C8_counterexample :
    (archiveEmployee wArchivedDB 60 9 1).1 = .ok200 ∧
    (archiveEmployee wArchivedDB 60 9 1).1 ≠ .notFound404 := by
  with_unfolding_all decide

/-- Claim C8 (amended): archiving an existing employee always answers 200:
it closes every open affectation row with date_fin = today, sets the
statut to Licencié and severs the user link, in one transaction; a repeat
archive of an already fully archived employee is answered 200 again and
leaves the store unchanged; 404 is produced exactly when no employees row
carries the requested id. -/
theorem claim_C8_archive_amended :
    (∀ (db : DB) (today : Int) (actor eid : Nat) (e : Employee),
      e ∈ db.employees → e.id = eid →
      (archiveEmployee db today actor eid).1 = .ok200 ∧
      (∀ a ∈ db.affectations, a.employee_id = eid → a.date_fin = none →
        { a with date_fin := some today,
                 motif := "Licenciement/Archivage par " ++ "Procédure de départ",
                 created_by_user_id := actor }
          ∈ (archiveEmployee db today actor eid).2.affectations) ∧
      (∀ e' ∈ (archiveEmployee db today actor eid).2.employees, e'.id = eid →
        e'.statut = "Licencié" ∧ e'.user_id = none)) ∧
    (∀ (db : DB) (today : Int) (actor eid : Nat),
      (∃ e ∈ db.employees, e.id = eid) →
      (∀ e ∈ db.employees, e.id = eid → e.statut = "Licencié" ∧ e.user_id = none) →
      (∀ a ∈ db.affectations, a.employee_id = eid → a.date_fin ≠ none) →
      archiveEmployee db today actor eid = (.ok200, db)) ∧
    (∀ (db : DB) (today : Int) (actor eid : Nat),
      (∀ e ∈ db.employees, e.id ≠ eid) →
      archiveEmployee db today actor eid = (.notFound404, db)) := by
  refine ⟨?_, ?_, ?_⟩
  · intro db today actor eid e he hid
    have hnotall : ¬(db.employees.all (fun e => e.id ≠ eid)) = true := by
      intro hall
      exact absurd (List.all_eq_true.mp hall e he) (by simp [hid])
    refine ⟨?_, ?_, ?_⟩
    · unfold archiveEmployee
      rw [if_neg hnotall]
    · intro a ha haid hafin
      unfold archiveEmployee
      rw [if_neg hnotall]
      refine List.mem_map.mpr ⟨a, ha, ?_⟩
      rw [if_pos (by simp [haid, hafin])]
    · intro e' he' hide'
      unfold archiveEmployee at he'
      rw [if_neg hnotall] at he'
      simp only [List.mem_map] at he'
      obtain ⟨e1, ⟨e0, he0, rfl⟩, rfl⟩ := he'
      by_cases h : e0.id = eid
      · rw [if_pos h, if_pos h]
        exact ⟨rfl, rfl⟩
      · rw [if_neg h] at hide' ⊢
        rw [if_neg h] at hide' ⊢
        exact absurd hide' h
  · intro db today actor eid hex harch hclosed
    obtain ⟨e, he, hid⟩ := hex
    have hnotall : ¬(db.employees.all (fun e => e.id ≠ eid)) = true := by
      intro hall
      exact absurd (List.all_eq_true.mp hall e he) (by simp [hid])
    unfold archiveEmployee
    rw [if_neg hnotall]
    have hemps :
        (db.employees.map (fun e =>
          if e.id = eid then { e with statut := "Licencié" } else e)).map
          (fun e => if e.id = eid then { e with user_id := none } else e)
        = db.employees := by
      rw [List.map_map]
      have : ∀ e0 ∈ db.employees,
          ((fun e => if e.id = eid then { e with user_id := none } else e) ∘
            (fun e => if e.id = eid then { e with statut := "Licencié" } else e)) e0
          = id e0 := by
        intro e0 he0
        by_cases h : e0.id = eid
        · obtain ⟨hst, hu⟩ := harch e0 he0 h
          simp only [Function.comp_apply, if_pos h, id]
          cases e0
          simp_all
        · simp only [Function.comp_apply, if_neg h, id]
      rw [List.map_congr_left this, List.map_id]
    have haffs : db.affectations.map (fun a =>
        if a.employee_id = eid && a.date_fin = none then
          { a with date_fin := some today,
                   motif := "Licenciement/Archivage par " ++ "Procédure de départ",
                   created_by_user_id := actor }
        else a) = db.affectations := by
      have : ∀ a ∈ db.affectations,
          (if a.employee_id = eid && a.date_fin = none then
            { a with date_fin := some today,
                     motif := "Licenciement/Archivage par " ++ "Procédure de départ",
                     created_by_user_id := actor }
          else a) = id a := by
        intro a ha
        by_cases h : a.employee_id = eid
        · have := hclosed a ha h
          rw [if_neg]
          · rfl
          · simp [h, this]
        · rw [if_neg]
          · rfl
          · simp [h]
      rw [List.map_congr_left this, List.map_id]
    rw [hemps, haffs]
  · intro db today actor eid hnone
    unfold archiveEmployee
    rw [if_pos]
    exact List.all_eq_true.mpr (fun e he => by simp [hnone e he])

/-- Witness for claim C8 (amended): a first archive on wDB answers 200, a
second archive on the archived store is a 200 no-op, and an unknown id is
a 404. -/
theorem claim_C8_witness :
    (archiveEmployee wDB 60 9 1).1 = .ok200 ∧
    archiveEmployee wArchivedDB 60 9 1 = (.ok200, wArchivedDB) ∧
    archiveEmployee wDB 60 9 5 = (.notFound404, wDB) :=
  ⟨(claim_C8_archive_amended.1 wDB 60 9 1 wEmployee (by decide) (by decide)).1,
    claim_C8_archive_amended.2.1 wArchivedDB 60 9 1
      ⟨{ wEmployee with statut := "Licencié", user_id := none }, by decide, by decide⟩
      (by decide) (by decide),
    claim_C8_archive_amended.2.2 wDB 60 9 5 (by decide)⟩

-- ######################################################################
-- Machinery for the affectation-history invariant (claims C3 and C4)
-- ######################################################################

theorem filter_eq_singleton_decomp {α : Type} {p : α → Bool} {l : List α}
    {o : α} (h : l.filter p = [o]) :
    ∃ l1 l2, l = l1 ++ o :: l2 ∧ (∀ a ∈ l1, p a = false) ∧
      (∀ a ∈ l2, p a = false) := by
  induction l with
  | nil => simp at h
  | cons a rest ih =>
    by_cases hpa : p a = true
    · rw [List.filter_cons_of_pos hpa] at h
      simp only [List.cons.injEq] at h
      obtain ⟨rfl, hrest⟩ := h
      refine ⟨[], rest, by simp, by simp, ?_⟩
      intro x hx
      simpa using List.filter_eq_nil_iff.mp hrest x hx
    · rw [List.filter_cons_of_neg hpa] at h
      obtain ⟨l1, l2, rfl, h1, h2⟩ := ih h
      refine ⟨a :: l1, l2, rfl, ?_, h2⟩
      intro x hx
      rcases List.mem_cons.mp hx with rfl | hx
      · simpa using hpa
      · exact h1 x hx

theorem mapFirstSuch_decomp {p : Affectation → Bool}
    {f : Affectation → Affectation} {l1 l2 : List Affectation}
    {o : Affectation} (h1 : ∀ a ∈ l1, p a = false) (ho : p o = true) :
    mapFirstSuch p f (l1 ++ o :: l2) = l1 ++ f o :: l2 := by
  induction l1 with
  | nil => simp [mapFirstSuch, ho]
  | cons a rest ih =>
    have hpa : p a = false := h1 a (List.mem_cons_self a rest)
    simp only [List.cons_append, mapFirstSuch, hpa]
    simp only [Bool.false_eq_true, if_false, List.cons.injEq, true_and]
    exact ih (fun x hx => h1 x (List.mem_cons_of_mem a hx))

theorem latestOpenStart_of_filter_singleton {l : List Affectation} {eid : Nat}
    {o : Affectation} (h : l.filter (isOpenFor eid) = [o]) :
    latestOpenStart l eid = some o.date_debut := by
  unfold latestOpenStart
  rw [h]
  rfl

theorem closeLatestOpen_decomp {l l1 l2 : List Affectation} {o : Affectation}
    {eid : Nat} {f : Affectation → Affectation}
    (hfil : l.filter (isOpenFor eid) = [o])
    (hdec : l = l1 ++ o :: l2)
    (h1 : ∀ a ∈ l1, isOpenFor eid a = false) :
    closeLatestOpen l eid f = l1 ++ f o :: l2 := by
  have ho : isOpenFor eid o = true := by
    have hmem : o ∈ l.filter (isOpenFor eid) := by
      rw [hfil]; exact List.mem_singleton.mpr rfl
    exact (List.mem_filter.mp hmem).2
  unfold closeLatestOpen
  rw [latestOpenStart_of_filter_singleton hfil, hdec]
  apply mapFirstSuch_decomp
  · intro a ha
    simp [h1 a ha]
  · simp [ho]

theorem updateEmployee_invalid {db : DB} {today : Int} {actor eid : Nat}
    {u : EmployeeUpdateInput} (h : validUpdateInput u = false) :
    updateEmployee db today actor eid u = (.badRequest400, false, db) := by
  simp [updateEmployee, h]

theorem updateEmployee_notFound {db : DB} {today : Int} {actor eid : Nat}
    {u : EmployeeUpdateInput} (hvalid : validUpdateInput u = true)
    (hfind : db.employees.find? (fun e => e.id = eid) = none) :
    updateEmployee db today actor eid u = (.notFound404, false, db) := by
  simp [updateEmployee, hvalid, hfind]

theorem updateEmployee_nomotif {db : DB} {today : Int} {actor eid : Nat}
    {u : EmployeeUpdateInput} {cur : Employee}
    (hvalid : validUpdateInput u = true)
    (hfind : db.employees.find? (fun e => e.id = eid) = some cur)
    (hchg : isAffectationChange u cur.placement = true)
    (hmot : truthyStr u.motif_changement = false) :
    updateEmployee db today actor eid u = (.badRequest400, false, db) := by
  simp [updateEmployee, hvalid, hfind, hchg, hmot]

theorem updateEmployee_change_eq {db : DB} {today : Int} {actor eid : Nat}
    {u : EmployeeUpdateInput} {cur : Employee}
    (hvalid : validUpdateInput u = true)
    (hfind : db.employees.find? (fun e => e.id = eid) = some cur)
    (hchg : isAffectationChange u cur.placement = true)
    (hmot : truthyStr u.motif_changement = true) :
    updateEmployee db today actor eid u =
      (.ok200, true,
        { db with
            affectations :=
              closeLatestOpen db.affectations eid
                (closeAffRow today actor
                  (jsOrStr u.motif_changement "Mutation/Changement de poste"))
                ++ [newAffRow today actor eid u cur],
            employees := db.employees.map (fun e =>
              if e.id = eid then { e with placement := applyLiveUpdate u e.placement }
              else e) }) := by
  simp [updateEmployee, hvalid, hfind, hchg, hmot]

theorem updateEmployee_nochange_eq {db : DB} {today : Int} {actor eid : Nat}
    {u : EmployeeUpdateInput} {cur : Employee}
    (hvalid : validUpdateInput u = true)
    (hfind : db.employees.find? (fun e => e.id = eid) = some cur)
    (hchg : isAffectationChange u cur.placement = false) :
    updateEmployee db today actor eid u =
      (.ok200, false,
        { db with
            employees := db.employees.map (fun e =>
              if e.id = eid then { e with placement := applyLiveUpdate u e.placement }
              else e) }) := by
  simp [updateEmployee, hvalid, hfind, hchg]

theorem validUpdateInput_props {u : EmployeeUpdateInput}
    (h : validUpdateInput u = true) :
    (∀ n, u.site_id = some n → 1 ≤ n) ∧
    (∀ n, u.department_id = some n → 1 ≤ n) ∧
    (∀ n, u.service_id = some n → 1 ≤ n) ∧
    (∀ n, u.team_id = some n → 1 ≤ n) ∧
    (∀ s, u.position = some s → s ≠ "") ∧
    (∀ s, u.fonction = some s → s ≠ "") ∧
    (∀ s, u.motif_changement = some s → s ≠ "") := by
  simp only [validUpdateInput, Bool.and_eq_true] at h
  obtain ⟨⟨⟨⟨⟨⟨⟨hs, hd⟩, hsv⟩, ht⟩, hp⟩, hf⟩, hm⟩, hc⟩ := h
  refine ⟨?_, ?_, ?_, ?_, ?_, ?_, ?_⟩ <;> intro x hx
  · rw [hx] at hs; simpa using hs
  · rw [hx] at hd; simpa using hd
  · rw [hx] at hsv; simpa using hsv
  · rw [hx] at ht; simpa using ht
  · rw [hx] at hp; simpa using hp
  · rw [hx] at hf; simpa using hf
  · rw [hx] at hm; simpa using hm

theorem jsOrNum_valid {o : Option Nat} {d : Nat}
    (h : ∀ n, o = some n → 1 ≤ n) : jsOrNum o d = o.getD d := by
  cases o with
  | none => rfl
  | some n =>
    have := h n rfl
    simp only [jsOrNum, Option.getD_some]
    rw [if_neg (by omega)]

theorem jsOrStr_valid {o : Option String} {d : String}
    (h : ∀ s, o = some s → s ≠ "") : jsOrStr o d = o.getD d := by
  cases o with
  | none => rfl
  | some s =>
    simp only [jsOrStr, Option.getD_some]
    rw [if_neg (h s rfl)]

theorem newPlacement_eq_applyLiveUpdate {u : EmployeeUpdateInput}
    (p : Placement) (hvalid : validUpdateInput u = true) :
    newPlacement u p = applyLiveUpdate u p := by
  obtain ⟨h1, h2, h3, h4, h5, h6, _⟩ := validUpdateInput_props hvalid
  unfold newPlacement applyLiveUpdate
  rw [jsOrNum_valid h1, jsOrNum_valid h2, jsOrNum_valid h3, jsOrNum_valid h4,
    jsOrStr_valid h5, jsOrStr_valid h6]

theorem getD_of_numChanged_false {o : Option Nat} {cur : Nat}
    (hv : ∀ n, o = some n → 1 ≤ n) (h : numChanged o cur = false) :
    o.getD cur = cur := by
  cases o with
  | none => rfl
  | some n =>
    have h1 := hv n rfl
    simp only [numChanged] at h
    rcases Bool.and_eq_false_iff.mp h with h0 | hcur
    · rw [bne_eq_false_iff_eq] at h0; omega
    · rw [bne_eq_false_iff_eq] at hcur; simpa using hcur

theorem getD_of_strChanged_false {o : Option String} {cur : String}
    (hv : ∀ s, o = some s → s ≠ "") (h : strChanged o cur = false) :
    o.getD cur = cur := by
  cases o with
  | none => rfl
  | some s =>
    simp only [strChanged] at h
    rcases Bool.and_eq_false_iff.mp h with h0 | hcur
    · rw [bne_eq_false_iff_eq] at h0; exact absurd h0 (hv s rfl)
    · rw [bne_eq_false_iff_eq] at hcur; simpa using hcur

theorem applyLiveUpdate_of_nochange {u : EmployeeUpdateInput} {p : Placement}
    (hvalid : validUpdateInput u = true)
    (hn : isAffectationChange u p = false) : applyLiveUpdate u p = p := by
  obtain ⟨h1, h2, h3, h4, h5, h6, _⟩ := validUpdateInput_props hvalid
  simp only [isAffectationChange, Bool.or_eq_false_iff] at hn
  obtain ⟨⟨⟨⟨⟨hs, hd⟩, hsv⟩, ht⟩, hp⟩, hf⟩ := hn
  unfold applyLiveUpdate
  rw [getD_of_numChanged_false h1 hs, getD_of_numChanged_false h2 hd,
    getD_of_numChanged_false h3 hsv, getD_of_numChanged_false h4 ht,
    getD_of_strChanged_false h5 hp, getD_of_strChanged_false h6 hf]

theorem eq_of_mem_nodup_id {l : List Employee}
    (hnd : (l.map Employee.id).Nodup) {e1 e2 : Employee}
    (h1 : e1 ∈ l) (h2 : e2 ∈ l) (h : e1.id = e2.id) : e1 = e2 := by
  induction l with
  | nil => cases h1
  | cons a rest ih =>
    rw [List.map_cons, List.nodup_cons] at hnd
    rcases List.mem_cons.mp h1 with h1a | h1r
    · rcases List.mem_cons.mp h2 with h2a | h2r
      · rw [h1a, h2a]
      · subst h1a
        exact absurd
          (by rw [h]; exact List.mem_map_of_mem Employee.id h2r) hnd.1
    · rcases List.mem_cons.mp h2 with h2a | h2r
      · subst h2a
        exact absurd
          (by rw [← h]; exact List.mem_map_of_mem Employee.id h1r) hnd.1
      · exact ih hnd.2 h1r h2r

theorem lastOpenMatches_concat {l : List Affectation} {a : Affectation}
    {p : Placement} :
    lastOpenMatches (l ++ [a]) p = true ↔ a.date_fin = none ∧ a.nouveau = p := by
  unfold lastOpenMatches
  rw [List.getLast?_concat]
  simp

theorem chain_extend {A : List Affectation} {o o2 n2 : Affectation}
    (hchain : List.Chain' Follows (A ++ [o]))
    (hanc : o2.ancien = o.ancien) (hnouv : o2.nouveau = o.nouveau)
    (hN : n2.ancien = some o.nouveau) :
    List.Chain' Follows (A ++ [o2, n2]) := by
  rw [List.chain'_append] at hchain ⊢
  obtain ⟨hA, _, hlink⟩ := hchain
  refine ⟨hA, ?_, ?_⟩
  · refine List.chain'_cons.mpr ⟨?_, by simp⟩
    show Follows o2 n2
    unfold Follows
    rw [hN, hnouv]
  · intro x hx y hy
    simp only [List.head?_cons, Option.mem_some_iff] at hy
    subst hy
    have hxo := hlink x hx o (by simp)
    unfold Follows at hxo ⊢
    rw [hanc]
    exact hxo

theorem tail_filter_open_nil {l2 A : List Affectation} {o : Affectation}
    {eid : Nat} {p : Placement}
    (h2 : ∀ a ∈ l2, isOpenFor eid a = false)
    (hlast : lastOpenMatches
      (A ++ o :: l2.filter (fun a => a.employee_id = eid)) p = true) :
    l2.filter (fun a => a.employee_id = eid) = [] := by
  by_contra hne
  obtain ⟨c, B', hBeq⟩ := List.exists_cons_of_ne_nil hne
  rw [hBeq] at hlast
  unfold lastOpenMatches at hlast
  rw [List.getLast?_append_cons, List.getLast?_cons_cons] at hlast
  cases hgl : (c :: B').getLast? with
  | none =>
    rw [hgl] at hlast
    exact absurd hlast (by simp)
  | some b =>
    rw [hgl] at hlast
    simp only [Bool.and_eq_true, decide_eq_true_eq] at hlast
    have hbmem : b ∈ c :: B' := List.mem_of_mem_getLast? (by rw [hgl]; rfl)
    have hbfil : b ∈ l2.filter (fun a => a.employee_id = eid) := by
      rw [hBeq]; exact hbmem
    have hb2 := List.mem_filter.mp hbfil
    rcases Bool.and_eq_false_iff.mp (h2 b hb2.1) with h | h
    · rw [hb2.2] at h
      exact absurd h (by simp)
    · rw [decide_eq_false_iff_not] at h
      exact h hlast.1

theorem createEmployee_cases (db : DB) (today : Int) (actor : Nat)
    (i : EmployeeCreationInput) :
    (createEmployee db today actor i).2 = db ∨
    createEmployee db today actor i =
      (.created201,
        { db with
            employees := db.employees ++ [hireEmployeeRow i db.nextEmployeeId],
            affectations :=
              db.affectations ++ [hireAffRow today actor db.nextEmployeeId i],
            nextEmployeeId := db.nextEmployeeId + 1 }) := by
  unfold createEmployee
  split_ifs <;> simp

theorem hist_inv_create {db : DB} {today : Int} {actor : Nat}
    {i : EmployeeCreationInput} (h : HistInv db) :
    HistInv (createEmployee db today actor i).2 := by
  obtain ⟨hbA, hbE, hnd, hinv⟩ := h
  rcases createEmployee_cases db today actor i with heq | heq
  · rw [heq]; exact ⟨hbA, hbE, hnd, hinv⟩
  · rw [heq]
    refine ⟨?_, ?_, ?_, ?_⟩
    · intro a ha
      show a.employee_id < db.nextEmployeeId + 1
      rcases List.mem_append.mp ha with ha | ha
      · have := hbA a ha; omega
      · rw [List.mem_singleton] at ha
        subst ha
        show db.nextEmployeeId < db.nextEmployeeId + 1
        omega
    · intro e he
      show e.id < db.nextEmployeeId + 1
      rcases List.mem_append.mp he with he | he
      · have := hbE e he; omega
      · rw [List.mem_singleton] at he
        subst he
        show db.nextEmployeeId < db.nextEmployeeId + 1
        omega
    · show ((db.employees ++ [hireEmployeeRow i db.nextEmployeeId]).map
        Employee.id).Nodup
      rw [List.map_append, List.nodup_append]
      refine ⟨hnd, by simp, ?_⟩
      intro x hx
      obtain ⟨e, he, rfl⟩ := List.mem_map.mp hx
      have := hbE e he
      simp only [List.map_cons, List.map_nil, List.mem_singleton,
        hireEmployeeRow]
      omega
    · intro e he
      rcases List.mem_append.mp he with he | he
      · have hlt := hbE e he
        have hskip1 : ([hireAffRow today actor db.nextEmployeeId i].filter
            (fun a => a.employee_id = e.id)) = [] := by
          apply List.filter_eq_nil_iff.mpr
          intro a ha
          rw [List.mem_singleton] at ha
          subst ha
          simp [hireAffRow]
          omega
        have hskip2 : ([hireAffRow today actor db.nextEmployeeId i].filter
            (isOpenFor e.id)) = [] := by
          apply List.filter_eq_nil_iff.mpr
          intro a ha
          rw [List.mem_singleton] at ha
          subst ha
          simp [hireAffRow, isOpenFor]
          omega
        obtain ⟨hopen, hchain, hlast⟩ := hinv e he
        have haff : affectationsOf
            { db with
                employees := db.employees ++ [hireEmployeeRow i db.nextEmployeeId],
                affectations :=
                  db.affectations ++ [hireAffRow today actor db.nextEmployeeId i],
                nextEmployeeId := db.nextEmployeeId + 1 } e.id
            = affectationsOf db e.id := by
          unfold affectationsOf
          show (db.affectations ++
            [hireAffRow today actor db.nextEmployeeId i]).filter _ = _
          rw [List.filter_append, hskip1, List.append_nil]
        refine ⟨?_, ?_, ?_⟩
        · unfold openCount at hopen ⊢
          show ((db.affectations ++
            [hireAffRow today actor db.nextEmployeeId i]).filter
              (isOpenFor e.id)).length = 1
          rw [List.filter_append, hskip2, List.append_nil]
          exact hopen
        · rw [haff]; exact hchain
        · rw [haff]; exact hlast
      · rw [List.mem_singleton] at he
        subst he
        have hskip1 : db.affectations.filter
            (fun a => a.employee_id = (hireEmployeeRow i db.nextEmployeeId).id)
            = [] := by
          apply List.filter_eq_nil_iff.mpr
          intro a ha
          have := hbA a ha
          simp [hireEmployeeRow]
          omega
        have hskip2 : db.affectations.filter
            (isOpenFor (hireEmployeeRow i db.nextEmployeeId).id) = [] := by
          apply List.filter_eq_nil_iff.mpr
          intro a ha
          have := hbA a ha
          simp [hireEmployeeRow, isOpenFor]
          omega
        refine ⟨?_, ?_, ?_⟩
        · unfold openCount
          show ((db.affectations ++
            [hireAffRow today actor db.nextEmployeeId i]).filter
              (isOpenFor (hireEmployeeRow i db.nextEmployeeId).id)).length = 1
          rw [List.filter_append, hskip2]
          simp [hireAffRow, hireEmployeeRow, isOpenFor]
        · unfold affectationsOf
          show List.Chain' Follows ((db.affectations ++
            [hireAffRow today actor db.nextEmployeeId i]).filter
              (fun a => a.employee_id = (hireEmployeeRow i db.nextEmployeeId).id))
          rw [List.filter_append, hskip1]
          simp [hireAffRow, hireEmployeeRow]
        · unfold affectationsOf
          show lastOpenMatches ((db.affectations ++
            [hireAffRow today actor db.nextEmployeeId i]).filter
              (fun a => a.employee_id = (hireEmployeeRow i db.nextEmployeeId).id))
            (hireEmployeeRow i db.nextEmployeeId).placement = true
          rw [List.filter_append, hskip1]
          simp [hireAffRow, hireEmployeeRow, lastOpenMatches]

theorem hist_inv_update {db : DB} {today : Int} {actor eid : Nat}
    {u : EmployeeUpdateInput} (h : HistInv db) :
    HistInv (updateEmployee db today actor eid u).2.2 := by
  obtain ⟨hbA, hbE, hnd, hinv⟩ := h
  by_cases hvalid : validUpdateInput u = true
  case neg =>
    rw [updateEmployee_invalid (by simpa using hvalid)]
    exact ⟨hbA, hbE, hnd, hinv⟩
  cases hfind : db.employees.find? (fun e => e.id = eid) with
  | none =>
    rw [updateEmployee_notFound hvalid hfind]
    exact ⟨hbA, hbE, hnd, hinv⟩
  | some cur =>
    have hcur_mem : cur ∈ db.employees := List.mem_of_find?_eq_some hfind
    have hcur_id : cur.id = eid := by simpa using List.find?_some hfind
    by_cases hchg : isAffectationChange u cur.placement = true
    case neg =>
      rw [updateEmployee_nochange_eq hvalid hfind (by simpa using hchg)]
      have hmap : db.employees.map (fun e =>
          if e.id = eid then { e with placement := applyLiveUpdate u e.placement }
          else e) = db.employees := by
        have hpt : ∀ e ∈ db.employees,
            (if e.id = eid then
              { e with placement := applyLiveUpdate u e.placement }
             else e) = e := by
          intro e he
          by_cases hid : e.id = eid
          · rw [if_pos hid]
            have hec : e = cur :=
              eq_of_mem_nodup_id hnd he hcur_mem (by rw [hid, hcur_id])
            subst hec
            rw [applyLiveUpdate_of_nochange hvalid (by simpa using hchg)]
          · rw [if_neg hid]
        calc db.employees.map (fun e =>
            if e.id = eid then
              { e with placement := applyLiveUpdate u e.placement }
            else e)
            = db.employees.map id := List.map_congr_left hpt
          _ = db.employees := List.map_id _
      rw [hmap]
      exact ⟨hbA, hbE, hnd, hinv⟩
    case pos =>
      by_cases hmot : truthyStr u.motif_changement = true
      case neg =>
        rw [updateEmployee_nomotif hvalid hfind hchg (by simpa using hmot)]
        exact ⟨hbA, hbE, hnd, hinv⟩
      case pos =>
        rw [updateEmployee_change_eq hvalid hfind hchg hmot]
        obtain ⟨hopen, hchain, hlast⟩ := hinv cur hcur_mem
        rw [hcur_id] at hopen hchain hlast
        unfold openCount at hopen
        obtain ⟨o, ho⟩ := List.length_eq_one.mp hopen
        obtain ⟨l1, l2, hdec, h1, h2⟩ := filter_eq_singleton_decomp ho
        have ho_open : isOpenFor eid o = true :=
          (List.mem_filter.mp (by rw [ho]; exact List.mem_singleton.mpr rfl)).2
        have ho_eid : o.employee_id = eid := by
          have := ho_open
          simp only [isOpenFor, Bool.and_eq_true, decide_eq_true_eq] at this
          exact this.1
        have ho_fin : o.date_fin = none := by
          have := ho_open
          simp only [isOpenFor, Bool.and_eq_true, decide_eq_true_eq] at this
          exact this.2
        have hclose : closeLatestOpen db.affectations eid
            (closeAffRow today actor
              (jsOrStr u.motif_changement "Mutation/Changement de poste"))
            = l1 ++ closeAffRow today actor
                (jsOrStr u.motif_changement "Mutation/Changement de poste") o
                :: l2 :=
          closeLatestOpen_decomp ho hdec h1
        rw [hclose]
        have haff_orig : affectationsOf db eid
            = l1.filter (fun a => a.employee_id = eid)
              ++ o :: l2.filter (fun a => a.employee_id = eid) := by
          unfold affectationsOf
          rw [hdec, List.filter_append,
            List.filter_cons_of_pos (by simp [ho_eid])]
        rw [haff_orig] at hchain hlast
        have hB : l2.filter (fun a => a.employee_id = eid) = [] :=
          tail_filter_open_nil h2 hlast
        rw [hB] at hchain hlast
        have ho_nouv : o.nouveau = cur.placement :=
          (lastOpenMatches_concat.mp hlast).2
        refine ⟨?_, ?_, ?_, ?_⟩
        · intro a ha
          show a.employee_id < db.nextEmployeeId
          rcases List.mem_append.mp ha with ha | ha
          · rcases List.mem_append.mp ha with ha | ha
            · exact hbA a (by rw [hdec]; exact List.mem_append_left _ ha)
            · rcases List.mem_cons.mp ha with rfl | ha
              · show o.employee_id < db.nextEmployeeId
                exact hbA o (by
                  rw [hdec]
                  exact List.mem_append_right _ (List.mem_cons_self o l2))
              · exact hbA a (by
                  rw [hdec]
                  exact List.mem_append_right _ (List.mem_cons_of_mem o ha))
          · rw [List.mem_singleton] at ha
            subst ha
            show eid < db.nextEmployeeId
            rw [← hcur_id]
            exact hbE cur hcur_mem
        · intro e he
          obtain ⟨e0, he0, rfl⟩ := List.mem_map.mp he
          show (if e0.id = eid then
            { e0 with placement := applyLiveUpdate u e0.placement }
            else e0).id < db.nextEmployeeId
          by_cases hid : e0.id = eid
          · rw [if_pos hid]
            exact hbE e0 he0
          · rw [if_neg hid]
            exact hbE e0 he0
        · show ((db.employees.map (fun e =>
            if e.id = eid then
              { e with placement := applyLiveUpdate u e.placement }
            else e)).map Employee.id).Nodup
          rw [List.map_map]
          have : ∀ e0 ∈ db.employees,
              (Employee.id ∘ fun e =>
                if e.id = eid then
                  { e with placement := applyLiveUpdate u e.placement }
                else e) e0 = Employee.id e0 := by
            intro e0 he0
            by_cases hid : e0.id = eid
            · simp only [Function.comp_apply, if_pos hid]
            · simp only [Function.comp_apply, if_neg hid]
          rw [List.map_congr_left this]
          exact hnd
        · intro e he
          obtain ⟨e0, he0, rfl⟩ := List.mem_map.mp he
          by_cases hid : e0.id = eid
          · have hec : cur = e0 :=
              (eq_of_mem_nodup_id hnd he0 hcur_mem (by rw [hid, hcur_id])).symm
            subst hec
            rw [if_pos hid]
            have hfo_skip : isOpenFor eid (closeAffRow today actor
                (jsOrStr u.motif_changement "Mutation/Changement de poste") o)
                = false := by
              simp [isOpenFor, closeAffRow]
            have hl1_open : l1.filter (isOpenFor eid) = [] :=
              List.filter_eq_nil_iff.mpr (fun a ha => by simp [h1 a ha])
            have hl2_open : l2.filter (isOpenFor eid) = [] :=
              List.filter_eq_nil_iff.mpr (fun a ha => by simp [h2 a ha])
            refine ⟨?_, ?_, ?_⟩
            · unfold openCount
              show (((l1 ++ closeAffRow today actor
                  (jsOrStr u.motif_changement "Mutation/Changement de poste") o
                  :: l2) ++ [newAffRow today actor eid u cur]).filter
                    (isOpenFor cur.id)).length = 1
              rw [hcur_id, List.filter_append, List.filter_append,
                List.filter_cons_of_neg (by simp [hfo_skip]),
                hl1_open, hl2_open]
              simp [isOpenFor, newAffRow]
            · unfold affectationsOf
              show List.Chain' Follows
                (((l1 ++ closeAffRow today actor
                  (jsOrStr u.motif_changement "Mutation/Changement de poste") o
                  :: l2) ++ [newAffRow today actor eid u cur]).filter
                    (fun a => a.employee_id = cur.id))
              rw [hcur_id, List.filter_append, List.filter_append,
                List.filter_cons_of_pos (by simp [closeAffRow, ho_eid]), hB]
              rw [List.filter_cons_of_pos (by simp [newAffRow]),
                List.filter_nil, List.append_assoc]
              apply chain_extend hchain
              · rfl
              · rfl
              · show (newAffRow today actor eid u cur).ancien = some o.nouveau
                rw [ho_nouv]
                rfl
            · unfold affectationsOf
              show lastOpenMatches
                (((l1 ++ closeAffRow today actor
                  (jsOrStr u.motif_changement "Mutation/Changement de poste") o
                  :: l2) ++ [newAffRow today actor eid u cur]).filter
                    (fun a => a.employee_id = cur.id))
                (applyLiveUpdate u cur.placement) = true
              rw [hcur_id, List.filter_append, List.filter_append,
                List.filter_cons_of_pos (by simp [closeAffRow, ho_eid]), hB]
              rw [List.filter_cons_of_pos (by simp [newAffRow]),
                List.filter_nil, lastOpenMatches_concat]
              constructor
              · rfl
              · show newPlacement u cur.placement = applyLiveUpdate u cur.placement
                exact newPlacement_eq_applyLiveUpdate cur.placement hvalid
          · rw [if_neg hid]
            have hne : eid ≠ e0.id := fun hh => hid hh.symm
            obtain ⟨hopen0, hchain0, hlast0⟩ := hinv e0 he0
            have haffsame : ((l1 ++ closeAffRow today actor
                (jsOrStr u.motif_changement "Mutation/Changement de poste") o
                :: l2) ++ [newAffRow today actor eid u cur]).filter
                  (fun a => a.employee_id = e0.id)
                = db.affectations.filter (fun a => a.employee_id = e0.id) := by
              rw [hdec]
              simp [List.filter_append, List.filter_cons, closeAffRow,
                newAffRow, ho_eid, hne]
            refine ⟨?_, ?_, ?_⟩
            · unfold openCount at hopen0 ⊢
              show (((l1 ++ closeAffRow today actor
                  (jsOrStr u.motif_changement "Mutation/Changement de poste") o
                  :: l2) ++ [newAffRow today actor eid u cur]).filter
                    (isOpenFor e0.id)).length = 1
              rw [hdec] at hopen0
              simp only [List.filter_append, List.filter_cons, isOpenFor,
                closeAffRow, newAffRow, ho_eid, hne, decide_eq_true_eq]
                at hopen0 ⊢
              simpa [hne] using hopen0
            · unfold affectationsOf
              show List.Chain' Follows
                (((l1 ++ closeAffRow today actor
                  (jsOrStr u.motif_changement "Mutation/Changement de poste") o
                  :: l2) ++ [newAffRow today actor eid u cur]).filter
                    (fun a => a.employee_id = e0.id))
              rw [haffsame]
              exact hchain0
            · unfold affectationsOf
              show lastOpenMatches
                (((l1 ++ closeAffRow today actor
                  (jsOrStr u.motif_changement "Mutation/Changement de poste") o
                  :: l2) ++ [newAffRow today actor eid u cur]).filter
                    (fun a => a.employee_id = e0.id)) e0.placement = true
              rw [haffsame]
              exact hlast0

theorem hist_inv_init (sites departments services teams : List Nat) :
    HistInv (initDB sites departments services teams) := by
  refine ⟨?_, ?_, ?_, ?_⟩ <;> simp [initDB]

theorem reachable_histInv {db : DB} (h : EmpReachable db) : HistInv db := by
  induction h with
  | init s d sv t => exact hist_inv_init s d sv t
  | step _ hs ih =>
    cases hs with
    | create today actor i => exact hist_inv_create ih
    | update today actor eid u => exact hist_inv_update ih

-- ######################################################################
-- Claim theorems C3 and C4
-- ######################################################################

/-- Claim C3: along any sequence of employee hires (POST /api/employee)
and employee updates (PUT /api/employee/:id) from an initial store, every
hired employee has exactly one open affectation history row at every
state: hiring inserts exactly one open row, and a placement-changing
update closes the previously open row and inserts exactly one new open
row in the same transaction, so the count never reaches zero and never
exceeds one. -/
theorem claim_C3_one_open_affectation {db : DB} (h : EmpReachable db) :
    ∀ e ∈ db.employees, openCount db e.id = 1 :=
  fun e he => ((reachable_histInv h).2.2.2 e he).1

/-- Witness for claim C3: the store obtained by one hire is reachable and
its employee (id 1) has exactly one open history row. -/
theorem claim_C3_witness :
    EmpReachable wHiredDB ∧ openCount wHiredDB 1 = 1 := by
  have hr : EmpReachable wHiredDB :=
    EmpReachable.step (EmpReachable.init [1] [1] [1] [1])
      (EmpStep.create (initDB [1] [1] [1] [1]) 0 9 wCreateInput)
  exact ⟨hr, claim_C3_one_open_affectation hr (hireEmployeeRow wCreateInput 1)
    (by with_unfolding_all decide)⟩

/-- Claim C4: a placement-changing update with a motif, against a store
satisfying the history invariant, runs the close-then-insert pair in one
transition: the store decomposes around the single open row o of the
employee, o is closed by closeAffRow (date_fin = today - 1, the closure
comment around the motif), a new row is inserted whose old snapshot is the
pre-update placement and whose new snapshot merges the supplied fields
over it, the live employees row is updated to exactly that new snapshot,
and the employee's history grows by exactly one row; moreover in every
store reachable by hires and updates, consecutive history rows chain:
the old snapshot of each row equals the new snapshot of its predecessor. -/
theorem claim_C4_close_then_insert :
    (∀ (db : DB) (today : Int) (actor eid : Nat) (u : EmployeeUpdateInput)
        (cur : Employee),
      HistInv db →
      db.employees.find? (fun e => e.id = eid) = some cur →
      validUpdateInput u = true →
      isAffectationChange u cur.placement = true →
      truthyStr u.motif_changement = true →
      ∃ l1 l2 o,
        db.affectations = l1 ++ o :: l2 ∧ isOpenFor eid o = true ∧
        updateEmployee db today actor eid u =
          (.ok200, true,
            { db with
                affectations :=
                  l1 ++ closeAffRow today actor
                      (jsOrStr u.motif_changement "Mutation/Changement de poste") o
                    :: (l2 ++ [newAffRow today actor eid u cur]),
                employees := db.employees.map (fun e =>
                  if e.id = eid then
                    { e with placement := applyLiveUpdate u e.placement }
                  else e) }) ∧
        (closeAffRow today actor
          (jsOrStr u.motif_changement "Mutation/Changement de poste") o).date_fin
          = some (today - 1) ∧
        (newAffRow today actor eid u cur).date_debut = today ∧
        (newAffRow today actor eid u cur).date_fin = none ∧
        (newAffRow today actor eid u cur).ancien = some cur.placement ∧
        (newAffRow today actor eid u cur).nouveau
          = applyLiveUpdate u cur.placement ∧
        (∀ e' ∈ (updateEmployee db today actor eid u).2.2.employees,
          e'.id = eid →
          e'.placement = (newAffRow today actor eid u cur).nouveau) ∧
        (affectationsOf (updateEmployee db today actor eid u).2.2 eid).length
          = (affectationsOf db eid).length + 1) ∧
    (∀ db : DB, EmpReachable db →
      ∀ e ∈ db.employees, List.Chain' Follows (affectationsOf db e.id)) := by
  constructor
  · intro db today actor eid u cur hinv hfind hvalid hchg hmot
    obtain ⟨hbA, hbE, hnd, hinvE⟩ := hinv
    have hcur_mem : cur ∈ db.employees := List.mem_of_find?_eq_some hfind
    have hcur_id : cur.id = eid := by simpa using List.find?_some hfind
    obtain ⟨hopen, hchain, hlast⟩ := hinvE cur hcur_mem
    rw [hcur_id] at hopen hchain hlast
    unfold openCount at hopen
    obtain ⟨o, ho⟩ := List.length_eq_one.mp hopen
    obtain ⟨l1, l2, hdec, h1, h2⟩ := filter_eq_singleton_decomp ho
    have ho_open : isOpenFor eid o = true :=
      (List.mem_filter.mp (by rw [ho]; exact List.mem_singleton.mpr rfl)).2
    have ho_eid : o.employee_id = eid := by
      have := ho_open
      simp only [isOpenFor, Bool.and_eq_true, decide_eq_true_eq] at this
      exact this.1
    have heq := @updateEmployee_change_eq db today actor eid u cur hvalid hfind hchg hmot
    rw [closeLatestOpen_decomp ho hdec h1] at heq
    refine ⟨l1, l2, o, hdec, ho_open, ?_, rfl, rfl, rfl, rfl,
      newPlacement_eq_applyLiveUpdate cur.placement hvalid, ?_, ?_⟩
    · rw [heq]
      simp [List.append_assoc]
    · intro e' he' hide'
      rw [heq] at he'
      simp only [List.mem_map] at he'
      obtain ⟨e0, he0, rfl⟩ := he'
      by_cases hid : e0.id = eid
      · have hec : cur = e0 :=
          (eq_of_mem_nodup_id hnd he0 hcur_mem (by rw [hid, hcur_id])).symm
        subst hec
        rw [if_pos hid]
        show applyLiveUpdate u cur.placement = (newAffRow today actor eid u cur).nouveau
        exact (newPlacement_eq_applyLiveUpdate cur.placement hvalid).symm
      · rw [if_neg hid] at hide' ⊢
        exact absurd hide' hid
    · rw [heq]
      unfold affectationsOf
      show (((l1 ++ closeAffRow today actor
          (jsOrStr u.motif_changement "Mutation/Changement de poste") o
          :: l2) ++ [newAffRow today actor eid u cur]).filter
            (fun a => a.employee_id = eid)).length
        = (db.affectations.filter (fun a => a.employee_id = eid)).length + 1
      rw [hdec]
      simp [List.filter_append, List.filter_cons, closeAffRow, newAffRow,
        ho_eid]
      omega
  · intro db h e he
    exact ((reachable_histInv h).2.2.2 e he).2.1

theorem wDB_histInv : HistInv wDB := by
  refine ⟨by decide, by decide, by decide, ?_⟩
  intro e he
  have he1 : e = wEmployee := by simpa [wDB] using he
  subst he1
  refine ⟨by decide, ?_, by decide⟩
  have haf : affectationsOf wDB wEmployee.id = [wAffOpen] := by decide
  rw [haf]
  exact List.chain'_singleton wAffOpen

/-- Witness for claim C4: the position change with motif Promotion on the
one-employee store, and the chain property on the reachable one-hire
store. -/
theorem claim_C4_witness :
    (HistInv wDB ∧
      wDB.employees.find? (fun e => e.id = 1) = some wEmployee ∧
      validUpdateInput wUpdateWithMotif = true ∧
      isAffectationChange wUpdateWithMotif wEmployee.placement = true ∧
      truthyStr wUpdateWithMotif.motif_changement = true ∧
      ∃ l1 l2 o,
        wDB.affectations = l1 ++ o :: l2 ∧ isOpenFor 1 o = true ∧
        updateEmployee wDB 100 9 1 wUpdateWithMotif =
          (.ok200, true,
            { wDB with
                affectations :=
                  l1 ++ closeAffRow 100 9
                      (jsOrStr wUpdateWithMotif.motif_changement
                        "Mutation/Changement de poste") o
                    :: (l2 ++ [newAffRow 100 9 1 wUpdateWithMotif wEmployee]),
                employees := wDB.employees.map (fun e =>
                  if e.id = 1 then
                    { e with placement :=
                        applyLiveUpdate wUpdateWithMotif e.placement }
                  else e) }) ∧
        (closeAffRow 100 9
          (jsOrStr wUpdateWithMotif.motif_changement
            "Mutation/Changement de poste") o).date_fin = some (100 - 1) ∧
        (newAffRow 100 9 1 wUpdateWithMotif wEmployee).date_debut = 100 ∧
        (newAffRow 100 9 1 wUpdateWithMotif wEmployee).date_fin = none ∧
        (newAffRow 100 9 1 wUpdateWithMotif wEmployee).ancien
          = some wEmployee.placement ∧
        (newAffRow 100 9 1 wUpdateWithMotif wEmployee).nouveau
          = applyLiveUpdate wUpdateWithMotif wEmployee.placement ∧
        (∀ e' ∈ (updateEmployee wDB 100 9 1 wUpdateWithMotif).2.2.employees,
          e'.id = 1 →
          e'.placement = (newAffRow 100 9 1 wUpdateWithMotif wEmployee).nouveau) ∧
        (affectationsOf (updateEmployee wDB 100 9 1 wUpdateWithMotif).2.2 1).length
          = (affectationsOf wDB 1).length + 1) ∧
    List.Chain' Follows (affectationsOf wHiredDB 1) := by
  have hr : EmpReachable wHiredDB :=
    EmpReachable.step (EmpReachable.init [1] [1] [1] [1])
      (EmpStep.create (initDB [1] [1] [1] [1]) 0 9 wCreateInput)
  refine ⟨⟨wDB_histInv, by decide, by decide, by decide, by decide, ?_⟩, ?_⟩
  · exact claim_C4_close_then_insert.1 wDB 100 9 1 wUpdateWithMotif wEmployee
      wDB_histInv (by decide) (by decide) (by decide) (by decide)
  · exact claim_C4_close_then_insert.2 wHiredDB hr
      (hireEmployeeRow wCreateInput 1) (by with_unfolding_all decide)

end SOGAS
